import Mathlib

/-!
Shallow embedding of the league simulation engine of
`src/league.py` (the second, authoritative definition set, lines 360-1175;
the first copy of the classes at lines 1-359 is shadowed by it).

Python floats are modelled as rationals (`ℚ`), Python ints as `Int`/`Nat`
as appropriate.  The process-global `random` generator is modelled as an
explicit stream of naturals threaded through every operation; each
primitive (`randint`, `random.random`, `random.choice`, `random.sample`,
`random.shuffle`) consumes values from the stream deterministically.
Fallible code (Python statements that can raise: out-of-range list
indexing, `random.sample` with too large `k`, missing helpers) is
modelled with `Option`: `none` stands for an escaping exception.
-/

namespace FCR

/-- The ambient pseudo-random generator (`random` module): an infinite
stream of naturals together with a cursor.  Each primitive draw consumes
one stream value. -/
structure Rng where
  vals : Nat → Nat
  pos : Nat
deriving Inhabited

/-- Draw one raw value from the stream. -/
def Rng.next (r : Rng) : Nat × Rng :=
  (r.vals r.pos, ⟨r.vals, r.pos + 1⟩)

/-- `random.randint(a, b)`: uniform integer in `[a, b]` (both ends
included); modelled as a stream draw reduced mod the range width. -/
def Rng.randint (r : Rng) (a b : Nat) : Nat × Rng :=
  let (v, r') := r.next
  (a + v % (b - a + 1), r')

/-- `random.random()`: a float in `[0, 1)`; modelled with six decimal
digits of resolution, which is enough to land on either side of every
threshold the source compares against (0.05, 0.10, 0.15, 0.6). -/
def Rng.randFloat (r : Rng) : ℚ × Rng :=
  let (v, r') := r.next
  (((v % 1000000 : Nat) : ℚ) / 1000000, r')

/-- `random.choice(xs)` for the non-empty literal lists used by the
source; `d` is returned for an empty list (Python would raise, but every
call site passes a non-empty literal). -/
def Rng.choice (r : Rng) (xs : List α) (d : α) : α × Rng :=
  let (v, r') := r.next
  (xs.getD (v % xs.length) d, r')

/-- `random.sample(range(n), 2)`: two distinct indices below `n`.
Callers guarantee `n ≥ 2` (Python raises otherwise). -/
def Rng.sample2 (r : Rng) (n : Nat) : (Nat × Nat) × Rng :=
  let (v1, r1) := r.next
  let (v2, r2) := r1.next
  let i := v1 % n
  let j0 := v2 % (n - 1)
  ((i, if j0 ≥ i then j0 + 1 else j0), r2)

/-- One swap of list entries `i` and `j`. -/
def listSwap (xs : List α) (i j : Nat) : List α :=
  match xs[i]?, xs[j]? with
  | some xi, some xj => (xs.set i xj).set j xi
  | _, _ => xs

/-- Fisher-Yates tail for `random.shuffle`: `i` runs down from
`len - 1` to `1`, drawing `j ∈ [0, i]` each step. -/
def shuffleGo (xs : List α) (i : Nat) (r : Rng) : List α × Rng :=
  match i with
  | 0 => (xs, r)
  | i' + 1 =>
    let (v, r1) := r.next
    let j := v % (i' + 2)
    shuffleGo (listSwap xs (i' + 1) j) i' r1

/-- `random.shuffle(xs)` (in-place in Python; returns the permuted list
here). -/
def Rng.shuffle (r : Rng) (xs : List α) : List α × Rng :=
  shuffleGo xs (xs.length - 1) r

/-- `random.sample(population, k)` for lists: `k` distinct elements,
drawn by repeated removal.  `none` models the `ValueError` Python raises
when `k` exceeds the population size. -/
def Rng.sampleK (r : Rng) (xs : List α) (k : Nat) : Option (List α × Rng) :=
  match k with
  | 0 => some ([], r)
  | k' + 1 =>
    if xs.length = 0 then none
    else
      let (v, r1) := r.next
      let i := v % xs.length
      match xs[i]? with
      | none => none
      | some x =>
        match r1.sampleK (xs.eraseIdx i) k' with
        | none => none
        | some (rest, r2) => some (x :: rest, r2)

section AList

variable {κ α : Type} [DecidableEq κ]

/-- `dict.get(k)`: first binding wins (keys are unique in a real dict). -/
def alGet (m : List (κ × α)) (k : κ) : Option α :=
  match m.find? (fun kv => kv.1 = k) with
  | some kv => some kv.2
  | none => none

/-- `dict[k] = v`: replace the existing binding in place (Python dicts
keep the original insertion position on overwrite) or append a new one. -/
def alSet (m : List (κ × α)) (k : κ) (v : α) : List (κ × α) :=
  match m with
  | [] => [(k, v)]
  | kv :: rest =>
    if kv.1 = k then (k, v) :: rest else kv :: alSet rest k v

/-- `k in dict`. -/
def alHas (m : List (κ × α)) (k : κ) : Bool :=
  (alGet m k).isSome

end AList

/-- Python `int()` truncation toward zero on a rational: `Int.tdiv` of
the reduced numerator by the (positive) denominator is exactly
truncation toward zero. -/
def pyInt (q : ℚ) : ℤ := q.num.tdiv q.den

/-- Floor of a rational through its reduced fraction (`Int.ediv` by the
positive denominator is floor division). -/
def ratFloor (q : ℚ) : ℤ := q.num.ediv q.den

/-- Python `round(x, 1)` (one decimal).  Modelled as round-half-up; the
only call site (`_cost_from_power`) can never produce an exact half, so
the tie-breaking mode is irrelevant there. -/
def pyRound1 (q : ℚ) : ℚ := (ratFloor (q * 10 + 1/2) : ℚ) / 10

/-- Python `round(x, 2)` (two decimals), same tie-mode remark. -/
def pyRound2 (q : ℚ) : ℚ := (ratFloor (q * 100 + 1/2) : ℚ) / 100

/-- `Card` (league.py lines 371-456): a draftable unit. -/
structure Card where
  id : String
  name : String
  archetype : String
  attack_type : String
  attack : ℤ
  defense : ℤ
  speed : ℤ
  stamina : ℤ
  special : ℤ
  base_cost : ℚ
  cost : ℚ
  age : ℤ
  lifespan : ℤ
  retired : Bool
  awards : List String
  history : List String
deriving DecidableEq, Inhabited

/-- An active shop boost held by a team (the dict built in
`purchase_boost`). -/
structure Boost where
  key : String
  stat : String
  amount : ℚ
  teamwide : Bool
  games_left : ℤ
  target : Option String
deriving DecidableEq, Inhabited

/-- `Team` (league.py lines 459-505). -/
structure Team where
  name : String
  logo : String
  gm_personality : String
  wins : Nat
  losses : Nat
  streak : ℤ
  roster : List String
  backup : Option String
  cost_spent : ℚ
  shop_points_left : ℚ
  boosts : List Boost
  trades_used : Nat
deriving DecidableEq, Inhabited

/-- A row of the season results log (the recap dict built in
`simulate_next_day`). -/
structure Recap where
  day : Nat
  home : String
  away : String
  home_score : ℤ
  away_score : ℤ
  winner : String
  comment : String
deriving DecidableEq, Inhabited

/-- A rivalry record (`{"games": _, "a_wins": _, "b_wins": _}`). -/
structure Rivalry where
  games : Nat
  a_wins : Nat
  b_wins : Nat
deriving DecidableEq, Inhabited

/-- A playoff series tally (`{"a_wins": _, "b_wins": _}`). -/
structure SeriesRec where
  a_wins : Nat
  b_wins : Nat
deriving DecidableEq, Inhabited

/-- One archived playoff series result (appended in
`_simulate_playoff_round`). -/
structure SeriesResult where
  round : Nat
  A : String
  B : String
  best_of : Nat
  final : String
  winner : String
deriving DecidableEq, Inhabited

/-- The playoff state dict built by `start_playoffs`.  `lengths_live`
records whether `round_lengths` still has integer keys: after a JSON
round-trip the keys are strings, so the integer lookup
`round_lengths.get(r, 7)` always returns the default 7; we model that
dead state with `lengths_live = false`. -/
structure Playoffs where
  round : Nat
  round_lengths : List (Nat × Nat)
  lengths_live : Bool
  pairs : List (Nat × Nat)
  series : List (String × SeriesRec)
  results : List SeriesResult
  champion : Option String
deriving DecidableEq, Inhabited

/-- A standings row (`standings_table`). -/
structure StandingRow where
  team : String
  w : Nat
  l : Nat
  streak : ℤ
deriving DecidableEq, Inhabited

/-- The awards dict of `calculate_awards`: `"MVP"` is always present
(possibly `None`); `"Finals MVP"` is present only when set. -/
structure Awards where
  mvp : Option String
  finals_mvp : Option String
deriving DecidableEq, Inhabited

/-- One patch note (`{"card": name, "attack": delta}`). -/
structure PatchNote where
  card : String
  attack : ℤ
deriving DecidableEq, Inhabited

/-- The patch dict of `apply_patch`. -/
structure Patch where
  buffs : List PatchNote
  nerfs : List PatchNote
deriving DecidableEq, Inhabited

/-- An `{"id": _, "name": _}` record (retirements / rookies). -/
structure IdName where
  id : String
  name : String
deriving DecidableEq, Inhabited

/-- A shop catalog item (`_default_shop_catalog`). -/
structure ShopItem where
  key : String
  label : String
  pts : ℚ
  stat : String
  amount : ℚ
  games : ℤ
  teamwide : Bool
deriving DecidableEq, Inhabited

/-- A key of the in-memory `past_seasons` dict.  `archive_season`
inserts integer keys; `load` leaves the JSON string keys untouched, so
after a load the keys are strings. -/
inductive PKey where
  | pInt (n : Nat)
  | pStr (s : String)
deriving DecidableEq, Inhabited

/-- One frozen season archive entry (`archive_season`). -/
structure SeasonArchive where
  standings : List StandingRow
  awards : Awards
  patch_notes : Patch
  retirements : List IdName
  rookies : List IdName
  playoffs : Option Playoffs
  transactions : List String
deriving DecidableEq, Inhabited

/-- The full league state (`League.__init__`, lines 529-547).
`playoffs = none` models the empty dict `{}`. -/
structure League where
  season : Nat
  day : Nat
  max_team_cost : ℚ
  teams : List Team
  cards : List (String × Card)
  schedule : List (Nat × Nat × Nat)
  results : List Recap
  transactions : List String
  rivalries : List ((Nat × Nat) × Rivalry)
  playoffs : Option Playoffs
  past_seasons : List (PKey × SeasonArchive)
  shop_catalog : List ShopItem
  rng_seed : Nat
deriving DecidableEq, Inhabited

/-- `_default_shop_catalog` (lines 608-616). -/
def defaultShopCatalog : List ShopItem :=
  [ ⟨"atk_boost", "+2 ATK (3 games)", 4, "attack", 2, 3, false⟩,
    ⟨"def_boost", "+2 DEF (3 games)", 4, "defense", 2, 3, false⟩,
    ⟨"spd_boost", "+2 SPD (3 games)", 4, "speed", 2, 3, false⟩,
    ⟨"team_atk", "+1 ATK (team, 2 games)", 6, "attack", 1, 2, true⟩,
    ⟨"stamina_reset", "Reset fatigue (1 card)", 3, "stamina_reset", 0, 0, false⟩ ]

/-- `random.seed(s)`: reseeding the global generator replaces the
stream by one derived deterministically from the seed.  The particular
mixing function is a model of the Mersenne twister seeding; only its
determinism matters. -/
def seedRng (s : Nat) : Rng :=
  ⟨fun n => (s + 1) * (n + 1) % 1000003, 0⟩

/-- `League.__init__` (lines 529-547): fresh empty league; draws the
seed with `randint(1, 1_000_000)` and reseeds the global generator. -/
def League.init (r : Rng) : League × Rng :=
  let (s, _) := r.randint 1 1000000
  (⟨1, 1, 20, [], [], [], [], [], [], none, [], defaultShopCatalog, s⟩, seedRng s)

end FCR

namespace FCR

/-- Replace the element at index `i` (no-op out of range; callers that
would raise in Python are guarded with `Option` at their own level). -/
def updAt (xs : List α) (i : Nat) (f : α → α) : List α :=
  match xs[i]? with
  | some x => xs.set i (f x)
  | none => xs

/-- `purchase_boost` (lines 618-640).  `none` models the `IndexError`
of `self.teams[team_idx]`. -/
def purchaseBoost (L : League) (team_idx : Nat) (item_key : String)
    (target_card : Option String) : Option (Bool × String × League) :=
  match L.teams[team_idx]? with
  | none => none
  | some team =>
    match L.shop_catalog.find? (fun x => x.key = item_key) with
    | none => some (false, "Item not found.", L)
    | some item =>
      if team.shop_points_left < item.pts then
        some (false, "Not enough shop points.", L)
      else if ¬item.teamwide ∧ item.stat ≠ "stamina_reset" ∧ target_card = none then
        some (false, "Select a target card.", L)
      else
        let boost : Boost :=
          ⟨item.key, item.stat, item.amount, item.teamwide, item.games, target_card⟩
        let team' : Team :=
          { team with shop_points_left := team.shop_points_left - item.pts,
                      boosts := team.boosts ++ [boost] }
        let msg := team.name ++ " purchased " ++ item.label
        some (true, msg,
          { L with teams := L.teams.set team_idx team',
                   transactions := L.transactions ++ [msg] })

/-- `card_power` inside `_simulate_match` (lines 756-757). -/
def cardPower (c : Card) : ℚ :=
  (c.attack : ℚ) + c.defense + c.speed + c.stamina + c.special

/-- One boost inside `apply_boosts` (lines 759-780): skipped while
expired, otherwise credited (`+amount*3` teamwide, else `+amount`),
decremented, and dropped once the counter reaches zero. -/
def boostStep (b : Boost) : ℚ × Option Boost :=
  if b.games_left ≤ 0 then (0, some b)
  else
    let b' : Boost := { b with games_left := b.games_left - 1 }
    (if b.teamwide then b.amount * 3 else b.amount,
     if b'.games_left ≤ 0 then none else some b')

/-- `apply_boosts` (lines 759-780): total bonus plus the surviving
boost list (in-place removal preserves the order of the rest). -/
def applyBoosts (T : Team) (base : ℚ) : ℚ × Team :=
  let folded := T.boosts.foldl
    (fun (acc : ℚ × List Boost) b =>
      let (q, keep) := boostStep b
      (acc.1 + q, match keep with | some b' => acc.2 ++ [b'] | none => acc.2))
    (0, [])
  (base + folded.1, { T with boosts := folded.2 })

/-- Sum of starter powers (lines 782-789): missing or retired cards
contribute nothing. -/
def rosterStrength (cards : List (String × Card)) (roster : List String) : ℚ :=
  roster.foldl
    (fun acc cid =>
      match alGet cards cid with
      | some c => if c.retired then acc else acc + cardPower c
      | none => acc)
    0

/-- `team_strength` (lines 782-797): starters, a 15% backup cameo
(the `random.random()` draw happens only when a backup exists), then
boosts.  Returns the strength and the team with decremented boosts. -/
def teamStrength (cards : List (String × Card)) (T : Team) (r : Rng) :
    ℚ × Team × Rng :=
  let base := rosterStrength cards T.roster
  let (base2, r2) :=
    match T.backup with
    | none => (base, r)
    | some bid =>
      let (q, r1) := r.randFloat
      if q < 15/100 then
        match alGet cards bid with
        | some cbu => if cbu.retired then (base, r1) else (base + 1/4 * cardPower cbu, r1)
        | none => (base, r1)
      else (base, r1)
  let (base3, T') := applyBoosts T base2
  (base3, T', r2)

/-- `_simulate_match` (lines 752-802).  Scores are
`int(strength / 25.0 + randint(0, 10))`; the home side's strength and
jitter are drawn before the away side's, and the home team's boost
decrement lands before the away team is read (the distinction matters
when both indices alias the same team). -/
def simMatch (L : League) (home_idx away_idx : Nat) (r : Rng) :
    Option ((ℤ × ℤ × String) × League × Rng) :=
  match L.teams[home_idx]? with
  | none => none
  | some home =>
    let (sh, home', r1) := teamStrength L.cards home r
    let (j1, r2) := r1.randint 0 10
    let L1 : League := { L with teams := L.teams.set home_idx home' }
    match L1.teams[away_idx]? with
    | none => none
    | some away =>
      let (sa, away', r3) := teamStrength L1.cards away r2
      let (j2, r4) := r3.randint 0 10
      let L2 : League := { L1 with teams := L1.teams.set away_idx away' }
      let hs := pyInt (sh / 25 + (j1 : ℚ))
      let ascore := pyInt (sa / 25 + (j2 : ℚ))
      some ((hs, ascore, "Regular season clash"), L2, r4)

/-- `_apply_result` (lines 722-732): one win, one loss, streak
bookkeeping; field updates land in source order (home first on a home
win). -/
def applyResult (teams : List Team) (h_idx a_idx : Nat) (winner_is_home : Bool) :
    List Team :=
  if winner_is_home then
    let t1 := updAt teams h_idx (fun t =>
      { t with wins := t.wins + 1,
               streak := if t.streak ≥ 0 then t.streak + 1 else 1 })
    updAt t1 a_idx (fun t =>
      { t with losses := t.losses + 1,
               streak := if t.streak ≤ 0 then t.streak - 1 else -1 })
  else
    let t1 := updAt teams a_idx (fun t =>
      { t with wins := t.wins + 1,
               streak := if t.streak ≥ 0 then t.streak + 1 else 1 })
    updAt t1 h_idx (fun t =>
      { t with losses := t.losses + 1,
               streak := if t.streak ≤ 0 then t.streak - 1 else -1 })

/-- `_bump_rivalry` (lines 734-750). -/
def bumpRivalry (riv : List ((Nat × Nat) × Rivalry)) (a_idx b_idx : Nat)
    (a_win : Bool) : List ((Nat × Nat) × Rivalry) :=
  let key := (min a_idx b_idx, max a_idx b_idx)
  let rv := (alGet riv key).getD ⟨0, 0, 0⟩
  let rv' :=
    if a_idx < b_idx then
      if a_win then { rv with a_wins := rv.a_wins + 1 }
      else { rv with b_wins := rv.b_wins + 1 }
    else
      if a_win then { rv with b_wins := rv.b_wins + 1 }
      else { rv with a_wins := rv.a_wins + 1 }
  alSet riv key rv'

/-- `season_complete` (lines 804-805): the day pointer is past the last
schedule entry's day (0 when the schedule is empty). -/
def seasonComplete (L : League) : Bool :=
  L.day > ((L.schedule.getLast?.map (fun g => g.1)).getD 0)

/-- The body of the game loop in `simulate_next_day` (lines 695-718),
one scheduled game at a time. -/
def processGames (L : League) (games : List (Nat × Nat × Nat))
    (recaps : List Recap) (r : Rng) : Option (List Recap × League × Rng) :=
  match games with
  | [] => some (recaps, L, r)
  | (_, a, b) :: rest =>
    match L.teams[a]?, L.teams[b]? with
    | some home, some away =>
      match simMatch L a b r with
      | none => none
      | some ((hs, ascore, detail), L1, r1) =>
        let winner_is_home := hs > ascore
        let teams2 := applyResult L1.teams a b winner_is_home
        let winner := if winner_is_home then home.name else away.name
        let riv2 := bumpRivalry L1.rivalries a b winner_is_home
        let recap : Recap := ⟨L.day, home.name, away.name, hs, ascore, winner, detail⟩
        let L2 : League :=
          { L1 with teams := teams2, rivalries := riv2,
                    results := L1.results ++ [recap] }
        processGames L2 rest (recaps ++ [recap]) r1
    | _, _ => none

/-- `simulate_next_day` (lines 687-720): resolve every game scheduled
for the current day, then advance the pointer; with no games the
pointer still advances, but only while the season is not complete. -/
def simulateNextDay (L : League) (r : Rng) : Option (List Recap × League × Rng) :=
  let games := L.schedule.filter (fun g => g.1 = L.day)
  if games.isEmpty then
    if ¬seasonComplete L then some ([], { L with day := L.day + 1 }, r)
    else some ([], L, r)
  else
    match processGames L games [] r with
    | none => none
    | some (recaps, L', r') => some (recaps, { L' with day := L'.day + 1 }, r')

end FCR

namespace FCR

/-- `standings_table` (lines 993-997). -/
def standingsTable (L : League) : List StandingRow :=
  L.teams.map (fun t => ⟨t.name, t.wins, t.losses, t.streak⟩)

/-- The series-dict key `f"{a}-{b}"`. -/
def pairKey (a b : Nat) : String := toString a ++ "-" ++ toString b

/-- `start_playoffs` (lines 808-823): stable-sort the team indices by
wins descending (Python `sorted(..., reverse=True)` keeps the original
order of ties), take the top 16, pair seed `i` with seed `15 - i`.
`none` models the `IndexError` raised when fewer than 16 teams exist. -/
def startPlayoffs (L : League) : Option League :=
  let order := (List.range L.teams.length).mergeSort
    (fun i j => ((L.teams[j]?.map Team.wins).getD 0) ≤ ((L.teams[i]?.map Team.wins).getD 0))
  let seeds := order.take 16
  if seeds.length < 16 then none
  else
    let pairs := (List.range 8).map (fun i => (seeds.getD i 0, seeds.getD (15 - i) 0))
    some { L with playoffs := some (
      { round := 1,
        round_lengths := [(1, 3), (2, 5), (3, 5), (4, 7)],
        lengths_live := true,
        pairs := pairs,
        series := pairs.map (fun ab => (pairKey ab.1 ab.2, ⟨0, 0⟩)),
        results := [],
        champion := none } : Playoffs) }

/-- The round-length lookup `self.playoffs["round_lengths"].get(r, 7)`:
once the dict has passed through JSON its keys are strings and the
integer lookup always yields the default 7. -/
def lengthFor (p : Playoffs) (r : Nat) : Nat :=
  if p.lengths_live then (alGet p.round_lengths r).getD 7 else 7

/-- The inner while-loop of `_simulate_playoff_round` (lines 848-853):
play single matches until one side reaches `needed` wins; a game whose
scores tie counts for side `b`. -/
def playSeries (L : League) (a b needed aW bW : Nat) (r : Rng) :
    Option (Nat × Nat × League × Rng) :=
  if h : aW < needed ∧ bW < needed then
    match simMatch L a b r with
    | none => none
    | some ((hs, ascore, _), L1, r1) =>
      if hs > ascore then playSeries L1 a b needed (aW + 1) bW r1
      else playSeries L1 a b needed aW (bW + 1) r1
  else
    some (aW, bW, L, r)
termination_by (needed - aW) + (needed - bW)
decreasing_by
  all_goals simp_wf
  all_goals omega

/-- The per-pair body of `_simulate_playoff_round` (lines 841-864):
resolve the series, store the tally, append the archived result, record
the winner.  `none` models the `IndexError` of `self.teams[...]`. -/
def playPair (L : League) (p : Playoffs) (rnd length : Nat) (ab : Nat × Nat)
    (winners : List Nat) (r : Rng) :
    Option (League × Playoffs × List Nat × Rng) :=
  let a := ab.1
  let b := ab.2
  let key := pairKey a b
  let series := (alGet p.series key).getD ⟨0, 0⟩
  let needed := length / 2 + 1
  match playSeries L a b needed series.a_wins series.b_wins r with
  | none => none
  | some (aW, bW, L1, r1) =>
    match L1.teams[a]?, L1.teams[b]? with
    | some ta, some tb =>
      let p1 : Playoffs :=
        { p with series := alSet p.series key ⟨aW, bW⟩,
                 results := p.results ++
                   [⟨rnd, ta.name, tb.name, length,
                     toString aW ++ "-" ++ toString bW,
                     if aW > bW then ta.name else tb.name⟩] }
      some (L1, p1, winners ++ [if aW > bW then a else b], r1)
    | _, _ => none

/-- Fold of `playPair` over the round's pairs. -/
def playPairs (L : League) (p : Playoffs) (rnd length : Nat)
    (pairs : List (Nat × Nat)) (winners : List Nat) (r : Rng) :
    Option (League × Playoffs × List Nat × Rng) :=
  match pairs with
  | [] => some (L, p, winners, r)
  | ab :: rest =>
    match playPair L p rnd length ab winners r with
    | none => none
    | some (L1, p1, w1, r1) =>
      playPairs L1 p1 rnd length rest w1 r1

/-- Consecutive pairing of the winners (lines 869-872): an odd leftover
is dropped. -/
def chunkPairs (ws : List Nat) : List (Nat × Nat) :=
  match ws with
  | a :: b :: rest => (a, b) :: chunkPairs rest
  | _ => []

/-- `_simulate_playoff_round` (lines 836-875): play every series of the
current round; with a single winner crown the champion, otherwise
re-seed the next round with fresh series records. -/
def simulatePlayoffRound (L : League) (r : Rng) : Option (League × Rng) :=
  match L.playoffs with
  | none => none
  | some p =>
    let rnd := p.round
    let length := lengthFor p rnd
    match playPairs L p rnd length p.pairs [] r with
    | none => none
    | some (L1, p1, winners, r1) =>
      if winners.length = 1 then
        match L1.teams[winners.getD 0 0]? with
        | none => none
        | some champ =>
          some ({ L1 with playoffs := some { p1 with champion := some champ.name } }, r1)
      else
        let next_pairs := chunkPairs winners
        some ({ L1 with playoffs := some (
          { p1 with round := rnd + 1,
                    pairs := next_pairs,
                    series := next_pairs.map (fun ab => (pairKey ab.1 ab.2, ⟨0, 0⟩)) } : Playoffs) }, r1)

/-- The while-loop of `simulate_playoffs_to_champion` (lines 828-829),
with fuel: `none` equally models the raised exceptions and the
divergence Python exhibits on a degenerate pair-less bracket. -/
def playoffLoop : Nat → League → Rng → Option (League × Rng)
  | 0, _, _ => none
  | fuel + 1, L, r =>
    match L.playoffs with
    | none => none
    | some p =>
      if p.champion.isSome then some (L, r)
      else
        match simulatePlayoffRound L r with
        | none => none
        | some (L1, r1) => playoffLoop fuel L1 r1

/-- `simulate_playoffs_to_champion` (lines 825-834): run rounds until a
champion name is set, then return the index of the first team carrying
that name.  The inner `Option` is the Python `None` result (no playoffs
seeded, or champion name not found). -/
def simulatePlayoffsToChampion (L : League) (r : Rng) :
    Option (Option Nat × League × Rng) :=
  match L.playoffs with
  | none => some (none, L, r)
  | some p =>
    match playoffLoop (p.pairs.length + 2) L r with
    | none => none
    | some (L1, r1) =>
      match L1.playoffs with
      | none => none
      | some p1 =>
        match p1.champion with
        | none => none
        | some name =>
          some (L1.teams.findIdx? (fun T => T.name = name), L1, r1)

end FCR

namespace FCR

/-- Total power of a card, the ad-hoc sum recomputed inside
`calculate_awards` (identical to `card_power`). -/
def awardPower (c : Card) : ℚ := cardPower c

/-- Python `max(range(n), key=wins)`: index of the first team with
maximal wins; `none` models the `ValueError` on an empty team list. -/
def bestTeamIdx (teams : List Team) : Option Nat :=
  match teams with
  | [] => none
  | t0 :: rest =>
    some (rest.foldl
      (fun (acc : Nat × Nat × Nat) t =>
        let (bi, bw, i) := acc
        if t.wins > bw then (i, t.wins, i + 1) else (bi, bw, i + 1))
      (0, t0.wins, 1)).1

/-- The strongest-card scan of `calculate_awards` (lines 885-893 and
902-909): first card with strictly greatest power, starting from -1. -/
def bestOnRoster (cards : List (String × Card)) (roster : List String) :
    Option String :=
  (roster.foldl
    (fun (acc : Option String × ℚ) cid =>
      match alGet cards cid with
      | none => acc
      | some c => if awardPower c > acc.2 then (some cid, awardPower c) else acc)
    (none, -1)).1

/-- Append an award tag to the card stored under `cid`. -/
def tagAward (cards : List (String × Card)) (cid : String) (tag : String) :
    List (String × Card) :=
  match alGet cards cid with
  | none => cards
  | some c => alSet cards cid { c with awards := c.awards ++ [tag] }

/-- `calculate_awards` (lines 878-913): MVP is the strongest card on
the winningest team; a champion roster additionally yields a Finals
MVP.  `none` models the exceptions on an empty team list or an
out-of-range champion index. -/
def calculateAwards (L : League) (champion_idx : Option Nat) :
    Option (Awards × League) :=
  match bestTeamIdx L.teams with
  | none => none
  | some bti =>
    match L.teams[bti]? with
    | none => none
    | some best_team =>
      let best_cid := bestOnRoster L.cards best_team.roster
      let cards1 :=
        match best_cid with
        | some cid => tagAward L.cards cid "MVP"
        | none => L.cards
      match champion_idx with
      | none => some (⟨best_cid, none⟩, { L with cards := cards1 })
      | some ci =>
        match L.teams[ci]? with
        | none => none
        | some champ =>
          let top_cid := bestOnRoster cards1 champ.roster
          let cards2 :=
            match top_cid with
            | some cid => tagAward cards1 cid "Finals MVP"
            | none => cards1
          some (⟨best_cid, top_cid⟩, { L with cards := cards2 })

/-- `adjust_costs` (lines 915-923): award carriers bump +1.5 capped at
10, everyone else drifts -0.2 floored at 1; retired cards untouched. -/
def adjustCosts (L : League) : League :=
  { L with cards := L.cards.map (fun kv =>
      let c := kv.2
      if c.retired then kv
      else if "MVP" ∈ c.awards ∨ "Finals MVP" ∈ c.awards then
        (kv.1, { c with cost := min 10 (c.cost + 3/2) })
      else
        (kv.1, { c with cost := max 1 (c.cost - 1/5) })) }

/-- `apply_patch` (lines 925-940): per active card one uniform draw;
below 0.05 a nerf of `randint(1,3)` attack (floored at 1), below 0.10 a
buff (capped at 100); retired cards consume no randomness. -/
def applyPatch (L : League) (r : Rng) : Patch × League × Rng :=
  let folded := L.cards.foldl
    (fun (acc : List (String × Card) × Patch × Rng) kv =>
      let (done, patch, r0) := acc
      let c := kv.2
      if c.retired then (done ++ [kv], patch, r0)
      else
        let (q, r1) := r0.randFloat
        if q < 5/100 then
          let (d, r2) := r1.randint 1 3
          let c' := { c with attack := max 1 (c.attack - (d : ℤ)) }
          (done ++ [(kv.1, c')],
           { patch with nerfs := patch.nerfs ++ [⟨c.name, -(d : ℤ)⟩] }, r2)
        else if q < 10/100 then
          let (d, r2) := r1.randint 1 3
          let c' := { c with attack := min 100 (c.attack + (d : ℤ)) }
          (done ++ [(kv.1, c')],
           { patch with buffs := patch.buffs ++ [⟨c.name, (d : ℤ)⟩] }, r2)
        else (done ++ [kv], patch, r1))
    ([], ⟨[], []⟩, r)
  (folded.2.1, { L with cards := folded.1 }, folded.2.2)

/-- `_cost_from_power` (lines 1123-1126): map total power to a cost in
[1, 10] with one decimal. -/
def costFromPower (power : ℤ) : ℚ :=
  let x : ℚ := 3 + ((power : ℚ) - 225) / 225 * 6
  max 1 (min 10 (pyRound1 x))

/-- One card of the aging/retirement loop of `retire_and_add_rookies`
(lines 944-951): an active card ages one season and, once at or past
its lifespan, retires only when the uniform draw falls below 0.6. -/
def retireStep (acc : List (String × Card) × List IdName × Rng)
    (kv : String × Card) : List (String × Card) × List IdName × Rng :=
  let done := acc.1
  let outs := acc.2.1
  let r0 := acc.2.2
  let c := kv.2
  if c.retired then (done ++ [kv], outs, r0)
  else
    let c1 := { c with age := c.age + 1 }
    if c1.age ≥ c1.lifespan then
      let (q, r1) := r0.randFloat
      if q < 6/10 then
        (done ++ [(kv.1, { c1 with retired := true })],
         outs ++ [⟨c1.id, c1.name⟩], r1)
      else (done ++ [(kv.1, c1)], outs, r1)
    else (done ++ [(kv.1, c1)], outs, r0)

/-- The aging/retirement pass of `retire_and_add_rookies` (lines
944-951). -/
def retirePhase (cards : List (String × Card)) (r : Rng) :
    List (String × Card) × List IdName × Rng :=
  cards.foldl retireStep ([], [], r)

/-- Mark each sampled card retired in the pool (object mutation in
Python; key-preserving update here). -/
def forceRetire (cards : List (String × Card)) (chosen : List Card)
    (outs : List IdName) : List (String × Card) × List IdName :=
  chosen.foldl
    (fun (acc : List (String × Card) × List IdName) c =>
      (alSet acc.1 c.id { c with retired := true },
       acc.2 ++ [⟨c.id, c.name⟩]))
    (cards, outs)

/-- One rookie of `retire_and_add_rookies` (lines 962-970), with the
draws in source evaluation order: id suffix, archetype, the five stats,
lifespan, attack type. -/
def makeRookie (season : Nat) (i : Nat) (r : Rng) : Card × Rng :=
  let (v, r1) := r.randint 1000 9999
  let cid := "S" ++ toString season ++ "_R" ++ toString i ++ "_" ++ toString v
  let (arch, r2) := r1.choice ["Tank", "DPS", "Control", "Support", "Hybrid"] "Tank"
  let (atk, r3) := r2.randint 45 75
  let (dfn, r4) := r3.randint 45 75
  let (spd, r5) := r4.randint 45 75
  let (sta, r6) := r5.randint 45 75
  let (spc, r7) := r6.randint 45 75
  let cost := costFromPower ((atk : ℤ) + dfn + spd + sta + spc)
  let (life, r8) := r7.randint 3 8
  let (atype, r9) := r8.choice ["Melee", "Ranged"] "Melee"
  (⟨cid, "Rookie " ++ toString i, arch, atype,
    (atk : ℤ), (dfn : ℤ), (spd : ℤ), (sta : ℤ), (spc : ℤ),
    cost, cost, 0, (life : ℤ), false, [], []⟩, r9)

/-- Descending stable order key of the pool-ceiling pass: Python
`sorted(key=lambda x: (x.age, x.cost), reverse=True)`. -/
def clampLe (c1 c2 : Card) : Bool :=
  c2.age < c1.age ∨ (c2.age = c1.age ∧ c2.cost ≤ c1.cost)

/-- `retire_and_add_rookies` (lines 942-979): age and probabilistically
retire, top up to three retirements from near-lifespan actives when the
pool is large (`none` models the `ValueError` when `random.sample` is
asked for more elements than the filtered population holds), add four
rookies, and prune the oldest actives beyond a 170-card ceiling. -/
def retireAndAddRookies (L : League) (r : Rng) :
    Option (List IdName × List IdName × League × Rng) :=
  let (cards1, outs1, r1) := retirePhase L.cards r
  let actives := (cards1.map Prod.snd).filter (fun c => ¬c.retired)
  let need_force := if actives.length > 100 then 3 - outs1.length else 0
  let step2 : Option (List (String × Card) × List IdName × Rng) :=
    if need_force ≠ 0 then
      let population := actives.filter (fun c => c.age ≥ c.lifespan - 1)
      match r1.sampleK population (min need_force actives.length) with
      | none => none
      | some (chosen, r2) =>
        let (cards2, outs2) := forceRetire cards1 chosen outs1
        some (cards2, outs2, r2)
    else some (cards1, outs1, r1)
  match step2 with
  | none => none
  | some (cards2, outs2, r2) =>
    let rookieFold := (List.range 4).foldl
      (fun (acc : List (String × Card) × List IdName × Rng) i =>
        let cs := acc.1
        let rs := acc.2.1
        let r0 := acc.2.2
        let cr := makeRookie L.season i r0
        (alSet cs cr.1.id cr.1, rs ++ [⟨cr.1.id, cr.1.name⟩], cr.2))
      (cards2, [], r2)
    let cards3 := rookieFold.1
    let rookies := rookieFold.2.1
    let r3 := rookieFold.2.2
    let total := cards3.length
    let final :=
      if total > 170 then
        let extras := total - 170
        let candidates := ((cards3.map Prod.snd).filter (fun c => ¬c.retired)).mergeSort clampLe
        let (cards4, outs4) := forceRetire cards3 (candidates.take extras) outs2
        (cards4, outs4)
      else (cards3, outs2)
    some (final.2, rookies, { L with cards := final.1 }, r3)

/-- `archive_season` (lines 981-990): freeze the season into
`past_seasons` under the integer season key. -/
def archiveSeason (L : League) (awards : Awards) (patch : Patch)
    (retired rookies : List IdName) : League :=
  let entry : SeasonArchive :=
    ⟨standingsTable L, awards, patch, retired, rookies, L.playoffs,
     L.transactions⟩
  { L with past_seasons := alSet L.past_seasons (PKey.pInt L.season) entry }

end FCR

namespace FCR

/-- Replace the first occurrence of `old` in a list. -/
def replaceFirst (xs : List String) (old new : String) : List String :=
  match xs with
  | [] => []
  | x :: rest => if x = old then new :: rest else x :: replaceFirst rest old new

/-- The `swap` helper of `execute_trade` (lines 1050-1055): replace the
card in the roster if present, otherwise touch the backup slot. -/
def swapCard (t : Team) (give get : String) : Team :=
  if give ∈ t.roster then { t with roster := replaceFirst t.roster give get }
  else if t.backup = some give then { t with backup := some get }
  else t

/-- `execute_trade` (lines 1031-1063).  Failure branches return the
state untouched; on success the two swaps and the cost/trade-counter
updates land in source order (which matters when both indices alias the
same team).  `none` models the `IndexError` of `self.teams[...]`. -/
def executeTrade (L : League) (own_team_idx : Nat) (my_card_id : String)
    (other_team_idx : Nat) (their_card_id : String) :
    Option (Bool × String × League) :=
  match L.teams[own_team_idx]?, L.teams[other_team_idx]? with
  | some A, some B =>
    if A.trades_used ≥ 1 then
      some (false, "You have already used your card trade this season.", L)
    else if ¬(my_card_id ∈ A.roster) ∧ A.backup ≠ some my_card_id then
      some (false, "You don't own that card.", L)
    else if ¬(their_card_id ∈ B.roster) ∧ B.backup ≠ some their_card_id then
      some (false, "Other team doesn't own that card.", L)
    else
      match alGet L.cards my_card_id, alGet L.cards their_card_id with
      | some ca, some cb =>
        let new_cost_A := A.cost_spent - ca.cost + cb.cost
        let new_cost_B := B.cost_spent - cb.cost + ca.cost
        if new_cost_A > L.max_team_cost ∨ new_cost_B > L.max_team_cost then
          some (false, "Trade breaks salary cap.", L)
        else
          let t1 := updAt L.teams own_team_idx (fun t => swapCard t my_card_id their_card_id)
          let t2 := updAt t1 other_team_idx (fun t => swapCard t their_card_id my_card_id)
          let t3 := updAt t2 own_team_idx (fun t : Team => { t with cost_spent := new_cost_A })
          let t4 := updAt t3 other_team_idx (fun t : Team => { t with cost_spent := new_cost_B })
          let t5 := updAt t4 own_team_idx (fun t : Team => { t with trades_used := t.trades_used + 1 })
          let note := "TRADE: " ++ A.name ++ " sent " ++ ca.name ++ " for " ++
            cb.name ++ " from " ++ B.name
          some (true, "Trade executed.",
            { L with teams := t5, transactions := L.transactions ++ [note] })
      | _, _ => some (false, "Card not found.", L)
  | _, _ => none

/-- `_best_affordable_card` (lines 1170-1175): among the pool cards
that fit under the cap, the first one of maximal total power. -/
def bestAffordableCard (pool : List Card) (current_cost cap : ℚ) : Option Card :=
  let affordable := pool.filter (fun c => current_cost + c.cost ≤ cap)
  match affordable with
  | [] => none
  | c0 :: rest =>
    some (rest.foldl (fun best c => if cardPower c > cardPower best then c else best) c0)

/-- Python `min(pool, key=cost)`: first card of minimal cost. -/
def cheapestCard (pool : List Card) : Option Card :=
  match pool with
  | [] => none
  | c0 :: rest =>
    some (rest.foldl (fun best c => if c.cost < best.cost then c else best) c0)

/-- One team's turn in `_fantasy_draft` (lines 1149-1165): best
affordable card, else the cheapest remaining one regardless of the cap;
an empty pool skips the turn. -/
def draftTurn (cap : ℚ) (isStarter : Bool)
    (state : List Card × List Team) (ti : Nat) : List Card × List Team :=
  let pool := state.1
  let teams := state.2
  match teams[ti]? with
  | none => state
  | some T =>
    let pick? :=
      match bestAffordableCard pool T.cost_spent cap with
      | some c => some c
      | none => cheapestCard pool
    match pick? with
    | none => state
    | some pick =>
      let T' :=
        if isStarter then
          { T with roster := T.roster ++ [pick.id],
                   cost_spent := T.cost_spent + pick.cost }
        else
          { T with backup := some pick.id,
                   cost_spent := T.cost_spent + pick.cost }
      (pool.erase pick, teams.set ti T')

/-- `_fantasy_draft` (lines 1137-1168): shuffle the active pool and the
team order, run 4 snake rounds (3 starter rounds, then the backup
round), then convert each team's leftover cap into shop points. -/
def fantasyDraft (L : League) (r : Rng) : League × Rng :=
  let pool0 := (L.cards.map Prod.snd).filter (fun c => ¬c.retired)
  let (pool1, r1) := r.shuffle pool0
  let (order, r2) := r1.shuffle (List.range L.teams.length)
  let afterRounds := (List.range 4).foldl
    (fun (st : List Card × List Team) rd =>
      let order_iter := if rd % 2 = 0 then order else order.reverse
      order_iter.foldl (draftTurn L.max_team_cost (rd < 3)) st)
    (pool1, L.teams)
  let teams' := afterRounds.2.map (fun T =>
    { T with shop_points_left := max 0 (pyRound2 (L.max_team_cost - T.cost_spent)) })
  ({ L with teams := teams' }, r2)

/-- `generate_calendar` (lines 666-676): 40 one-game days pairing two
random distinct teams; `none` models the `ValueError` of
`random.sample` with fewer than two teams.  Resets the day pointer. -/
def generateCalendar (L : League) (r : Rng) : Option (League × Rng) :=
  if L.teams.length < 2 then none
  else
    let folded := (List.range 40).foldl
      (fun (acc : List (Nat × Nat × Nat) × Rng) d =>
        let ((a, b), r') := acc.2.sample2 L.teams.length
        (acc.1 ++ [(d + 1, a, b)], r'))
      ([], r)
    some ({ L with schedule := folded.1, day := 1 }, folded.2)

/-- `_initialize_rivalries` (lines 678-684): one record per unordered
pair appearing in the schedule, counting scheduled games. -/
def initializeRivalries (L : League) : League :=
  let riv' := L.schedule.foldl
    (fun riv g =>
      let key := (min g.2.1 g.2.2, max g.2.1 g.2.2)
      let rv := (alGet riv key).getD ⟨0, 0, 0⟩
      alSet riv key { rv with games := rv.games + 1 })
    []
  { L with rivalries := riv' }

/-- Modelled from the spec: `_seed_card_names` is called by
`_generate_initial_cards` (line 1096) but is defined nowhere in `src/`;
the spec places "cosmetic content generation (name/logo/flavor-text
pools)" explicitly out of scope (§1), so the pool is modelled as a
deterministic list of distinct names. -/
def seedCardNames (target : Nat) : List String :=
  (List.range target).map (fun i => "Card " ++ toString i)

/-- `f"C{i:03d}"`: zero-padded card id. -/
def cardId (i : Nat) : String :=
  let s := toString i
  "C" ++ (if i < 10 then "00" ++ s else if i < 100 then "0" ++ s else s)

/-- One generated card of `_generate_initial_cards` (lines 1097-1121),
draws in source order: archetype, the five stats, lifespan, attack
type. -/
def makeInitialCard (name : String) (i : Nat) (r : Rng) : Card × Rng :=
  let (arch, r1) := r.choice ["Tank", "DPS", "Control", "Support", "Hybrid"] "Tank"
  let (atk, r2) := r1.randint 45 90
  let (dfn, r3) := r2.randint 45 90
  let (spd, r4) := r3.randint 45 90
  let (sta, r5) := r4.randint 45 90
  let (spc, r6) := r5.randint 45 90
  let cost := costFromPower ((atk : ℤ) + dfn + spd + sta + spc)
  let (life, r7) := r6.randint 3 8
  let (atype, r8) := r7.choice ["Melee", "Ranged"] "Melee"
  (⟨cardId i, name, arch, atype,
    (atk : ℤ), (dfn : ℤ), (spd : ℤ), (sta : ℤ), (spc : ℤ),
    cost, cost, 0, (life : ℤ), false, [], []⟩, r8)

/-- `_generate_initial_cards` (lines 1092-1121). -/
def generateInitialCards (L : League) (target : Nat) (r : Rng) : League × Rng :=
  let names := seedCardNames target
  let folded := (List.range target).foldl
    (fun (acc : List (String × Card) × Rng) i =>
      let (c, r') := makeInitialCard (names.getD i "") i acc.2
      (alSet acc.1 c.id c, r'))
    (L.cards, r)
  ({ L with cards := folded.1 }, folded.2)

/-- The logo pool of `_generate_teams` (line 1129); the emoji literals
are cosmetic and replaced here by ASCII placeholders of the same
count. -/
def teamLogos : List String :=
  ["L01", "L02", "L03", "L04", "L05", "L06", "L07", "L08",
   "L09", "L10", "L11", "L12", "L13", "L14", "L15"]

/-- `_generate_teams` (lines 1128-1135). -/
def generateTeams (L : League) (n : Nat) (r : Rng) : League × Rng :=
  let folded := (List.range n).foldl
    (fun (acc : List Team × Rng) i =>
      let name := "Team " ++ String.singleton (Char.ofNat (65 + i % 26)) ++
        (if i < 26 then "" else toString i)
      let (logo, r1) := acc.2.choice teamLogos "L01"
      let (gm, r2) := r1.choice
        ["aggressive", "balanced", "cautious", "chaotic", "methodical"] "balanced"
      (acc.1 ++ [⟨name, logo, gm, 0, 0, 0, [], none, 0, 0, [], 0⟩], r2))
    (L.teams, r)
  ({ L with teams := folded.1 }, folded.2)

/-- `start_preseason` (lines 643-664): generate cards/teams when
missing, reset every team's season state, draft, regenerate the
calendar and the rivalry table. -/
def startPreseason (L : League) (r : Rng) : Option (League × Rng) :=
  let (L1, r1) := if L.cards.isEmpty then generateInitialCards L 160 r else (L, r)
  let (L2, r2) := if L1.teams.isEmpty then generateTeams L1 30 r1 else (L1, r1)
  let L3 : League := { L2 with teams := L2.teams.map (fun T =>
    { T with wins := 0, losses := 0, streak := 0, roster := [], backup := none,
             boosts := [], trades_used := 0, cost_spent := 0,
             shop_points_left := 0 }) }
  let (L4, r4) := fantasyDraft L3 r2
  match generateCalendar L4 r4 with
  | none => none
  | some (L5, r5) => some (initializeRivalries L5, r5)

/-- Day of the last schedule entry (0 when empty), the bound of the
regular-season while-loop. -/
def lastScheduleDay (L : League) : Nat :=
  ((L.schedule.getLast?.map (fun g => g.1)).getD 0)

/-- The `while not season_complete` loop of `run_full_season_if_needed`
(lines 1071-1072), with fuel; `lastScheduleDay + 1` steps always
suffice because every step advances the day pointer. -/
def regularLoop : Nat → League → Rng → Option (League × Rng)
  | 0, L, r => if seasonComplete L then some (L, r) else none
  | fuel + 1, L, r =>
    if seasonComplete L then some (L, r)
    else
      match simulateNextDay L r with
      | none => none
      | some (_, L1, r1) => regularLoop fuel L1 r1

/-- `run_full_season_if_needed` (lines 1070-1087): finish the regular
season, seed the playoffs when absent and run them to a champion, then
awards, cost drift, patch, retirement/rookies, archive, and roll into
the next season's preseason. -/
def runFullSeasonIfNeeded (L : League) (r : Rng) : Option (League × Rng) :=
  match regularLoop (lastScheduleDay L + 1) L r with
  | none => none
  | some (L1, r1) =>
    let seeded : Option League :=
      match L1.playoffs with
      | none => startPlayoffs L1
      | some _ => some L1
    match seeded with
    | none => none
    | some L2 =>
      match simulatePlayoffsToChampion L2 r1 with
      | none => none
      | some (champ_idx, L3, r3) =>
        match calculateAwards L3 champ_idx with
        | none => none
        | some (awards, L4) =>
          let L5 := adjustCosts L4
          let (patch, L6, r6) := applyPatch L5 r3
          match retireAndAddRookies L6 r6 with
          | none => none
          | some (retired, rookies, L7, r7) =>
            let L8 := archiveSeason L7 awards patch retired rookies
            let L9 : League :=
              { L8 with season := L8.season + 1, results := [],
                        transactions := [], playoffs := none }
            startPreseason L9 r7

end FCR

namespace FCR

/-- Decimal digits of a natural number, most significant first: the
standard rendering used by Python `str(int)` and f-strings. -/
def natDigits (n : Nat) : List Char :=
  if h : n < 10 then [Nat.digitChar n]
  else natDigits (n / 10) ++ [Nat.digitChar (n % 10)]
decreasing_by
  exact Nat.div_lt_self (by omega) (by omega)

/-- Python `str(n)` for a natural number. -/
def natStr (n : Nat) : String := ⟨natDigits n⟩

/-- Split a character list on `'-'` (Python `k.split("-")`). -/
def splitDash (cs : List Char) : List (List Char) :=
  match cs with
  | [] => [[]]
  | c :: rest =>
    if c = '-' then [] :: splitDash rest
    else
      match splitDash rest with
      | [] => [[c]]
      | p :: ps => (c :: p) :: ps

/-- Python `int(s)` on a digit string: the usual fold; `none` models the
raised `ValueError` on an empty or non-digit string (the signs and
whitespace `int` also accepts never occur in the saved keys). -/
def parseNatChars (cs : List Char) : Option Nat :=
  if cs ≠ [] ∧ cs.all Char.isDigit then
    some (cs.foldl (fun n c => n * 10 + (c.toNat - 48)) 0)
  else none

/-- The `try: a, b = k.split("-"); riv[(int(a), int(b))] = v; except:
continue` parser of `League.load` (lines 589-596). -/
def parseRivKey (s : String) : Option (Nat × Nat) :=
  match splitDash s.data with
  | [a, b] =>
    match parseNatChars a, parseNatChars b with
    | some x, some y => some (x, y)
    | _, _ => none
  | _ => none

/-- The JSON image of the playoffs dict: tuple pairs become two-element
lists and the integer `round_lengths` keys become strings. -/
structure PlayoffsJson where
  round : Nat
  round_lengths : List (String × Nat)
  pairs : List (List Nat)
  series : List (String × SeriesRec)
  results : List SeriesResult
  champion : Option String
deriving DecidableEq, Inhabited

/-- The JSON image of a season archive entry (only the nested playoffs
dict changes shape under JSON). -/
structure SeasonArchiveJson where
  standings : List StandingRow
  awards : Awards
  patch_notes : Patch
  retirements : List IdName
  rookies : List IdName
  playoffs : Option PlayoffsJson
  transactions : List String
deriving DecidableEq, Inhabited

/-- JSON encoding of a native playoffs dict (`json.dump` stringifies
the integer keys and turns tuples into lists).  A dict that was itself
loaded from JSON (`lengths_live = false`) carries no live integer
lengths; its preserved string-keyed table is modelled as empty. -/
def playoffsToJson (p : Playoffs) : PlayoffsJson :=
  ⟨p.round,
   p.round_lengths.map (fun kv => (natStr kv.1, kv.2)),
   p.pairs.map (fun ab => [ab.1, ab.2]),
   p.series, p.results, p.champion⟩

/-- What `load` leaves in `self.playoffs`: the raw JSON shapes.  The
two-element pair lists are read back as pairs here (a malformed list
would only raise later, at the unpack inside `_simulate_playoff_round`);
the string-keyed `round_lengths` dict is dead to the integer lookups,
recorded by `lengths_live = false`. -/
def jsonToPlayoffs (j : PlayoffsJson) : Playoffs :=
  ⟨j.round, [], false,
   j.pairs.map (fun xs => (xs.getD 0 0, xs.getD 1 0)),
   j.series, j.results, j.champion⟩

/-- JSON encoding of an archive entry. -/
def archiveToJson (a : SeasonArchive) : SeasonArchiveJson :=
  ⟨a.standings, a.awards, a.patch_notes, a.retirements, a.rookies,
   a.playoffs.map playoffsToJson, a.transactions⟩

/-- The archive entry as `load` leaves it (raw JSON values). -/
def jsonToArchive (a : SeasonArchiveJson) : SeasonArchive :=
  ⟨a.standings, a.awards, a.patch_notes, a.retirements, a.rookies,
   a.playoffs.map jsonToPlayoffs, a.transactions⟩

/-- A `past_seasons` key as written by `json.dump`: integer keys are
stringified, string keys pass through. -/
def pkeyToString : PKey → String
  | PKey.pInt n => natStr n
  | PKey.pStr s => s

/-- The on-disk snapshot written by `save` (lines 550-567), after
`json.dump`: every dict key is a string, every tuple a list. -/
structure SaveData where
  season : Nat
  day : Nat
  max_team_cost : ℚ
  teams : List Team
  cards : List (String × Card)
  schedule : List (Nat × Nat × Nat)
  results : List Recap
  transactions : List String
  rivalries : List (String × Rivalry)
  playoffs : Option PlayoffsJson
  past_seasons : List (String × SeasonArchiveJson)
  shop_catalog : List ShopItem
  rng_seed : Nat
deriving DecidableEq, Inhabited

/-- `save` (lines 550-567): the rivalry keys are written as
`f"{a}-{b}"`; `json.dump` stringifies the integer `past_seasons` keys. -/
def save (L : League) : SaveData :=
  ⟨L.season, L.day, L.max_team_cost, L.teams, L.cards, L.schedule,
   L.results, L.transactions,
   L.rivalries.map (fun kv =>
     (natStr kv.1.1 ++ "-" ++ natStr kv.1.2, kv.2)),
   L.playoffs.map playoffsToJson,
   L.past_seasons.map (fun kv => (pkeyToString kv.1, archiveToJson kv.2)),
   L.shop_catalog, L.rng_seed⟩

/-- `load` (lines 569-605), the pure part after `json.load` succeeds:
rivalry keys are parsed back to integer pairs (unparsable keys are
skipped), while `past_seasons` keys stay the strings JSON made of them;
the global generator is reseeded from the stored seed. -/
def load (d : SaveData) : League × Rng :=
  (⟨d.season, d.day, d.max_team_cost, d.teams, d.cards, d.schedule,
    d.results, d.transactions,
    d.rivalries.filterMap (fun kv =>
      (parseRivKey kv.1).map (fun k => (k, kv.2))),
    d.playoffs.map jsonToPlayoffs,
    d.past_seasons.map (fun kv => (PKey.pStr kv.1, jsonToArchive kv.2)),
    d.shop_catalog, d.rng_seed⟩,
   seedRng d.rng_seed)

end FCR

namespace FCR

/-! Concrete material shared by witnesses and counterexamples. -/

/-- A constant random stream. -/
def constRng (k : Nat) : Rng := ⟨fun _ => k, 0⟩

/-- A minimal league shell used to build concrete states. -/
def emptyLeague : League :=
  ⟨1, 1, 20, [], [], [], [], [], [], none, [], defaultShopCatalog, 7⟩

/-- A plain team literal used by the concrete states. -/
def mkTeam (name : String) (roster : List String) (backup : Option String)
    (cost : ℚ) : Team :=
  ⟨name, "L01", "balanced", 0, 0, 0, roster, backup, cost, 0, [], 0⟩

/-- A plain card literal (all stats `p`, cost `c`). -/
def mkCard (cid : String) (p : ℤ) (c : ℚ) : Card :=
  ⟨cid, "N" ++ cid, "Tank", "Melee", p, p, p, p, p, c, c, 0, 6, false, [], []⟩

/-! C6 -/

/-- Claim C6, amended:  when no schedule entry matches the current day,
`simulate_next_day` returns an empty recap list and leaves everything
unchanged, advancing the day pointer by one exactly when the season is
not yet complete (a completed season leaves even the pointer where it
was). -/
theorem c6_no_games_noop (L : League) (r : Rng)
    (h : ∀ g ∈ L.schedule, g.1 ≠ L.day) :
    simulateNextDay L r =
      some ([], if seasonComplete L then L else { L with day := L.day + 1 }, r) := by
  have hg : L.schedule.filter (fun g => g.1 = L.day) = [] := by
    rw [List.filter_eq_nil_iff]
    intro g hgmem
    simpa using h g hgmem
  unfold simulateNextDay
  rw [hg]
  by_cases hc : seasonComplete L <;> simp [hc]

/-- Witness for C6's amended theorem at a concrete pending-season
state. -/
theorem c6_no_games_noop_witness :
    simulateNextDay { emptyLeague with schedule := [(2, 0, 1)] } (constRng 0) =
      some ([], if seasonComplete { emptyLeague with schedule := [(2, 0, 1)] }
                then { emptyLeague with schedule := [(2, 0, 1)] }
                else { { emptyLeague with schedule := [(2, 0, 1)] } with day := 2 },
            constRng 0) :=
  c6_no_games_noop { emptyLeague with schedule := [(2, 0, 1)] } (constRng 0)
    (by decide)

/-- Counterexample to claim C6 as stated: with an empty schedule no
entry matches the current day, yet `simulate_next_day` does not advance
the pointer at all (the season counts as complete), contradicting
"changes nothing except advancing the day pointer by one". -/
theorem c6_counterexample :
    (∀ g ∈ emptyLeague.schedule, g.1 ≠ emptyLeague.day) ∧
    emptyLeague.day = 1 ∧
    (simulateNextDay emptyLeague (constRng 0)).map (fun x => x.2.1.day) = some 1 := by
  refine ⟨by decide, rfl, ?_⟩
  rfl

/-! C7 -/

/-- Any `execute_trade` failure leaves the league untouched. -/
theorem executeTrade_fail_eq (L : League) (own : Nat) (my : String)
    (other : Nat) (their : String) (m : String) (L' : League)
    (h : executeTrade L own my other their = some (false, m, L')) : L' = L := by
  unfold executeTrade at h
  split at h
  case h_2 => exact absurd h (by simp)
  split at h
  · simp only [Option.some.injEq, Prod.mk.injEq] at h
    exact h.2.2.symm
  split at h
  · simp only [Option.some.injEq, Prod.mk.injEq] at h
    exact h.2.2.symm
  split at h
  · simp only [Option.some.injEq, Prod.mk.injEq] at h
    exact h.2.2.symm
  split at h
  · dsimp only at h
    split at h
    · simp only [Option.some.injEq, Prod.mk.injEq] at h
      exact h.2.2.symm
    · simp only [Option.some.injEq, Prod.mk.injEq] at h
      exact absurd h.1 (by simp)
  · simp only [Option.some.injEq, Prod.mk.injEq] at h
    exact h.2.2.symm

/-- Any `purchase_boost` failure leaves the league untouched. -/
theorem purchaseBoost_fail_eq (L : League) (ti : Nat) (key : String)
    (tgt : Option String) (m : String) (L' : League)
    (h : purchaseBoost L ti key tgt = some (false, m, L')) : L' = L := by
  unfold purchaseBoost at h
  split at h
  case h_1 => exact absurd h (by simp)
  split at h
  · simp only [Option.some.injEq, Prod.mk.injEq] at h
    exact h.2.2.symm
  split at h
  · simp only [Option.some.injEq, Prod.mk.injEq] at h
    exact h.2.2.symm
  split at h
  · simp only [Option.some.injEq, Prod.mk.injEq] at h
    exact h.2.2.symm
  · simp only [Option.some.injEq, Prod.mk.injEq] at h
    exact absurd h.1 (by simp)

/-- A team that already spent its one seasonal card trade is refused
with the dedicated message and no state change. -/
theorem executeTrade_trades_used (L : League) (own : Nat) (my : String)
    (other : Nat) (their : String) (A B : Team)
    (hA : L.teams[own]? = some A) (hB : L.teams[other]? = some B)
    (hused : 1 ≤ A.trades_used) :
    executeTrade L own my other their =
      some (false, "You have already used your card trade this season.", L) := by
  unfold executeTrade
  rw [hA, hB]
  simp [hused]

/-- A boost whose price exceeds the team's remaining shop points is
refused with the dedicated message and no state change. -/
theorem purchaseBoost_insufficient (L : League) (ti : Nat) (key : String)
    (tgt : Option String) (team : Team) (item : ShopItem)
    (hT : L.teams[ti]? = some team)
    (hI : L.shop_catalog.find? (fun x => x.key = key) = some item)
    (hpts : team.shop_points_left < item.pts) :
    purchaseBoost L ti key tgt = some (false, "Not enough shop points.", L) := by
  unfold purchaseBoost
  rw [hT, hI]
  simp [hpts]

/-- Claim C7:  every failing `execute_trade` or `purchase_boost` call
returns the league exactly as it was (no partial application); in
particular a second card trade in a season fails with the used-trade
message, and an unaffordable boost fails leaving `shop_points_left`
(along with everything else) unchanged. -/
theorem c7_failures_unchanged :
    (∀ (L : League) (own : Nat) (my : String) (other : Nat) (their : String)
       (m : String) (L' : League),
       executeTrade L own my other their = some (false, m, L') → L' = L)
    ∧ (∀ (L : League) (ti : Nat) (key : String) (tgt : Option String)
         (m : String) (L' : League),
         purchaseBoost L ti key tgt = some (false, m, L') → L' = L)
    ∧ (∀ (L : League) (own : Nat) (my : String) (other : Nat) (their : String)
         (A B : Team), L.teams[own]? = some A → L.teams[other]? = some B →
         1 ≤ A.trades_used →
         executeTrade L own my other their =
           some (false, "You have already used your card trade this season.", L))
    ∧ (∀ (L : League) (ti : Nat) (key : String) (tgt : Option String)
         (team : Team) (item : ShopItem),
         L.teams[ti]? = some team →
         L.shop_catalog.find? (fun x => x.key = key) = some item →
         team.shop_points_left < item.pts →
         purchaseBoost L ti key tgt = some (false, "Not enough shop points.", L)) :=
  ⟨executeTrade_fail_eq, purchaseBoost_fail_eq,
   executeTrade_trades_used, purchaseBoost_insufficient⟩

/-- Team 0 of C7's witness league: trade already used, 1 shop point
left. -/
def c7TeamA : Team :=
  { (mkTeam "Team A" ["x"] none 2) with trades_used := 1, shop_points_left := 1 }

/-- Team 1 of C7's witness league. -/
def c7TeamB : Team := mkTeam "Team B" ["y"] none 3

/-- The concrete league of C7's witness. -/
def c7League : League :=
  { emptyLeague with
      teams := [c7TeamA, c7TeamB],
      cards := [("x", mkCard "x" 50 2), ("y", mkCard "y" 50 3)] }

/-- Witness for C7 at the concrete league: the second trade and the
unaffordable boost both fail without touching the state. -/
theorem c7_failures_unchanged_witness :
    executeTrade c7League 0 "x" 1 "y" =
      some (false, "You have already used your card trade this season.", c7League) ∧
    purchaseBoost c7League 0 "atk_boost" (some "x") =
      some (false, "Not enough shop points.", c7League) :=
  ⟨c7_failures_unchanged.2.2.1 c7League 0 "x" 1 "y" c7TeamA c7TeamB
     (by decide) (by decide) (by decide),
   c7_failures_unchanged.2.2.2 c7League 0 "atk_boost" (some "x") c7TeamA
     ⟨"atk_boost", "+2 ATK (3 games)", 4, "attack", 2, 3, false⟩
     (by decide) (by decide) (by decide)⟩

end FCR

namespace FCR

/-! C5 -/

/-- In a regular-season game the recap's winner is the home side
exactly when the home score is strictly higher; a tie goes to the away
side. -/
theorem recap_winner_by_score (L : League) (r : Rng) (d a b : Nat)
    (home away : Team) (recap : Recap) (L' : League) (r' : Rng)
    (hfilter : L.schedule.filter (fun g => g.1 = L.day) = [(d, a, b)])
    (hA : L.teams[a]? = some home) (hB : L.teams[b]? = some away)
    (hsim : simulateNextDay L r = some ([recap], L', r')) :
    (recap.away_score < recap.home_score → recap.winner = home.name) ∧
    (recap.home_score ≤ recap.away_score → recap.winner = away.name) := by
  unfold simulateNextDay at hsim
  rw [hfilter] at hsim
  simp only [List.isEmpty_cons, if_false, Bool.false_eq_true] at hsim
  unfold processGames at hsim
  rw [hA, hB] at hsim
  cases hm : simMatch L a b r with
  | none => rw [hm] at hsim; simp at hsim
  | some out =>
    obtain ⟨⟨hs, ascore, det⟩, L1, r1⟩ := out
    rw [hm] at hsim
    unfold processGames at hsim
    simp only [Option.some.injEq, Prod.mk.injEq, List.nil_append] at hsim
    obtain ⟨hrecap, -, -⟩ := hsim
    have hr : recap =
        ⟨L.day, home.name, away.name, hs, ascore,
         if hs > ascore then home.name else away.name, det⟩ := by
      cases hrecap
      rfl
    subst hr
    refine ⟨fun hlt => ?_, fun hle => ?_⟩
    · exact if_pos hlt
    · exact if_neg (not_lt.mpr hle)

/-- In a playoff series a game whose scores tie is credited to side
`b`: the next recursion step increments `b`'s tally. -/
theorem playSeries_tie_to_b (L : League) (a b needed aW bW : Nat) (r : Rng)
    (hs ascore : ℤ) (det : String) (L1 : League) (r1 : Rng)
    (haW : aW < needed) (hbW : bW < needed)
    (hm : simMatch L a b r = some ((hs, ascore, det), L1, r1))
    (htie : hs ≤ ascore) :
    playSeries L a b needed aW bW r = playSeries L1 a b needed aW (bW + 1) r1 := by
  rw [playSeries]
  rw [dif_pos ⟨haW, hbW⟩, hm]
  simp only [not_lt.mpr htie, if_false, gt_iff_lt]

/-- Claim C5, amended:  the higher score wins, but an exact tie is
deterministically awarded to the away side (regular season) or to side
`b` of the pairing (playoff series) — there is no coin flip. -/
theorem c5_tie_goes_to_away :
    (∀ (L : League) (r : Rng) (d a b : Nat) (home away : Team)
       (recap : Recap) (L' : League) (r' : Rng),
       L.schedule.filter (fun g => g.1 = L.day) = [(d, a, b)] →
       L.teams[a]? = some home → L.teams[b]? = some away →
       simulateNextDay L r = some ([recap], L', r') →
       (recap.away_score < recap.home_score → recap.winner = home.name) ∧
       (recap.home_score ≤ recap.away_score → recap.winner = away.name))
    ∧ (∀ (L : League) (a b needed aW bW : Nat) (r : Rng)
         (hs ascore : ℤ) (det : String) (L1 : League) (r1 : Rng),
         aW < needed → bW < needed →
         simMatch L a b r = some ((hs, ascore, det), L1, r1) →
         hs ≤ ascore →
         playSeries L a b needed aW bW r = playSeries L1 a b needed aW (bW + 1) r1) :=
  ⟨recap_winner_by_score, playSeries_tie_to_b⟩

/-- The two-team league of C5's concrete states: empty rosters make
both strengths 0, so both scores equal the shared jitter draw. -/
def c5League : League :=
  { emptyLeague with
      teams := [mkTeam "Team A" [] none 0, mkTeam "Team B" [] none 0],
      schedule := [(1, 0, 1)] }

/-- Witness for C5's amended theorem at the concrete tied game. -/
theorem c5_tie_goes_to_away_witness :
    (∀ (recap : Recap) (L' : League) (r' : Rng),
       simulateNextDay c5League (constRng 0) = some ([recap], L', r') →
       (recap.away_score < recap.home_score → recap.winner = "Team A") ∧
       (recap.home_score ≤ recap.away_score → recap.winner = "Team B")) :=
  fun recap L' r' h =>
    c5_tie_goes_to_away.1 c5League (constRng 0) 1 0 1
      (mkTeam "Team A" [] none 0) (mkTeam "Team B" [] none 0) recap L' r'
      (by decide) (by decide) (by decide) h

/-- Counterexample to claim C5 as stated: under three different random
streams the game ties 0-0, 3-3, 7-7 and is always awarded to the away
side — the tie is resolved deterministically, not by a fair coin
flip. -/
theorem c5_counterexample :
    ((simulateNextDay c5League (constRng 0)).map
       (fun x => x.1.map (fun rc => (rc.home_score, rc.away_score, rc.winner)))
      = some [(0, 0, "Team B")]) ∧
    ((simulateNextDay c5League (constRng 3)).map
       (fun x => x.1.map (fun rc => (rc.home_score, rc.away_score, rc.winner)))
      = some [(3, 3, "Team B")]) ∧
    ((simulateNextDay c5League (constRng 7)).map
       (fun x => x.1.map (fun rc => (rc.home_score, rc.away_score, rc.winner)))
      = some [(7, 7, "Team B")]) := by
  refine ⟨?_, ?_, ?_⟩ <;> with_unfolding_all decide

end FCR

namespace FCR

/-! Shared list bookkeeping lemmas. -/

theorem updAt_length (xs : List α) (i : Nat) (f : α → α) :
    (updAt xs i f).length = xs.length := by
  unfold updAt
  cases h : xs[i]? <;> simp

theorem updAt_getElem?_eq (xs : List α) (i : Nat) (f : α → α) (x : α)
    (h : xs[i]? = some x) : (updAt xs i f)[i]? = some (f x) := by
  unfold updAt
  rw [h]
  have hlt : i < xs.length := by
    by_contra hge
    rw [List.getElem?_eq_none (by omega)] at h
    exact absurd h (by simp)
  exact List.getElem?_set_self hlt

theorem updAt_getElem?_ne (xs : List α) (i j : Nat) (f : α → α)
    (h : i ≠ j) : (updAt xs i f)[j]? = xs[j]? := by
  unfold updAt
  cases hx : xs[i]? <;> simp [List.getElem?_set_ne h]

/-- A keep-the-better fold stays inside the candidate list. -/
theorem foldl_pick_mem (p : α → α → Bool) (xs : List α) (x : α) :
    xs.foldl (fun best c => if p c best then c else best) x ∈ x :: xs := by
  induction xs generalizing x with
  | nil => simp
  | cons y ys ih =>
    simp only [List.foldl_cons]
    by_cases hp : p y x
    · simp only [hp, if_true]
      rcases List.mem_cons.mp (ih y) with h1 | h1
      · rw [h1]
        exact List.mem_cons_of_mem x (List.mem_cons_self y ys)
      · exact List.mem_cons_of_mem x (List.mem_cons_of_mem y h1)
    · simp only [hp, Bool.false_eq_true, if_false]
      rcases List.mem_cons.mp (ih x) with h1 | h1
      · rw [h1]
        exact List.mem_cons_self x _
      · exact List.mem_cons_of_mem x (List.mem_cons_of_mem y h1)

/-! C1 -/

/-- A pick returned by `_best_affordable_card` really is affordable:
the team's spending stays within the cap. -/
theorem bestAffordableCard_le (pool : List Card) (cost cap : ℚ) (c : Card)
    (h : bestAffordableCard pool cost cap = some c) : cost + c.cost ≤ cap := by
  unfold bestAffordableCard at h
  cases haff : pool.filter (fun c => cost + c.cost ≤ cap) with
  | nil => rw [haff] at h; exact absurd h (by simp)
  | cons c0 rest =>
    rw [haff] at h
    simp only [Option.some.injEq] at h
    have hmem : c ∈ c0 :: rest := by
      rw [← h]
      exact foldl_pick_mem _ rest c0
    have := List.mem_filter.mp (haff ▸ hmem)
    exact of_decide_eq_true this.2

/-- The full success shape of `execute_trade`: the guards that held and
the exact final state. -/
theorem executeTrade_success_shape (L : League) (own : Nat) (my : String)
    (other : Nat) (their : String) (m : String) (L' : League)
    (h : executeTrade L own my other their = some (true, m, L')) :
    ∃ A B ca cb,
      L.teams[own]? = some A ∧ L.teams[other]? = some B ∧
      alGet L.cards my = some ca ∧ alGet L.cards their = some cb ∧
      A.trades_used = 0 ∧
      (my ∈ A.roster ∨ A.backup = some my) ∧
      (their ∈ B.roster ∨ B.backup = some their) ∧
      A.cost_spent - ca.cost + cb.cost ≤ L.max_team_cost ∧
      B.cost_spent - cb.cost + ca.cost ≤ L.max_team_cost ∧
      L' = { L with
        teams :=
          updAt (updAt (updAt (updAt (updAt L.teams own
            (fun t => swapCard t my their)) other
            (fun t => swapCard t their my)) own
            (fun t : Team => { t with cost_spent := A.cost_spent - ca.cost + cb.cost })) other
            (fun t : Team => { t with cost_spent := B.cost_spent - cb.cost + ca.cost })) own
            (fun t : Team => { t with trades_used := t.trades_used + 1 }),
        transactions := L.transactions ++
          ["TRADE: " ++ A.name ++ " sent " ++ ca.name ++ " for " ++
           cb.name ++ " from " ++ B.name] } := by
  unfold executeTrade at h
  split at h
  case h_2 => exact absurd h (by simp)
  rename_i A B heqA heqB
  split at h
  · exact absurd h (by simp)
  split at h
  · exact absurd h (by simp)
  split at h
  · exact absurd h (by simp)
  rename_i hused hmy htheir
  split at h
  case h_2 => exact absurd h (by simp)
  rename_i ca cb heqCa heqCb
  dsimp only at h
  split at h
  · exact absurd h (by simp)
  rename_i hcap
  simp only [Option.some.injEq, Prod.mk.injEq] at h
  refine ⟨A, B, ca, cb, heqA, heqB, heqCa, heqCb, by omega, ?_, ?_, ?_, ?_, ?_⟩
  · rcases not_and_or.mp hmy with h1 | h1
    · exact Or.inl (not_not.mp h1)
    · exact Or.inr (not_not.mp h1)
  · rcases not_and_or.mp htheir with h1 | h1
    · exact Or.inl (not_not.mp h1)
    · exact Or.inr (not_not.mp h1)
  · have := not_or.mp hcap
    exact not_lt.mp this.1
  · have := not_or.mp hcap
    exact not_lt.mp this.2
  · exact h.2.2.symm

/-- A successful trade leaves both touched teams at or under the cap. -/
theorem executeTrade_success_cap (L : League) (own : Nat) (my : String)
    (other : Nat) (their : String) (m : String) (L' : League)
    (h : executeTrade L own my other their = some (true, m, L')) :
    (∀ T, L'.teams[own]? = some T → T.cost_spent ≤ L.max_team_cost) ∧
    (∀ T, L'.teams[other]? = some T → T.cost_spent ≤ L.max_team_cost) := by
  obtain ⟨A, B, ca, cb, heqA, heqB, _, _, _, _, _, hcapA, hcapB, hL'⟩ :=
    executeTrade_success_shape L own my other their m L' h
  subst hL'
  by_cases hoo : own = other
  · subst hoo
    have h1 := updAt_getElem?_eq L.teams own (fun t => swapCard t my their) A heqA
    have h2 := updAt_getElem?_eq _ own (fun t => swapCard t their my) _ h1
    have h3 := updAt_getElem?_eq _ own
      (fun t : Team => { t with cost_spent := A.cost_spent - ca.cost + cb.cost }) _ h2
    have h4 := updAt_getElem?_eq _ own
      (fun t : Team => { t with cost_spent := B.cost_spent - cb.cost + ca.cost }) _ h3
    have h5 := updAt_getElem?_eq _ own
      (fun t : Team => { t with trades_used := t.trades_used + 1 }) _ h4
    constructor <;> intro T hT <;>
      · rw [h5] at hT
        cases hT
        exact hcapB
  · have hne : own ≠ other := hoo
    have h1 := updAt_getElem?_eq L.teams own (fun t => swapCard t my their) A heqA
    have h2own := updAt_getElem?_ne (updAt L.teams own (fun t => swapCard t my their))
      other own (fun t => swapCard t their my) (Ne.symm hne)
    have h3 := updAt_getElem?_eq _ own
      (fun t : Team => { t with cost_spent := A.cost_spent - ca.cost + cb.cost }) _
      (h2own.trans h1)
    have h4own := updAt_getElem?_ne
      (updAt (updAt (updAt L.teams own (fun t => swapCard t my their)) other
        (fun t => swapCard t their my)) own
        (fun t : Team => { t with cost_spent := A.cost_spent - ca.cost + cb.cost }))
      other own
      (fun t : Team => { t with cost_spent := B.cost_spent - cb.cost + ca.cost }) (Ne.symm hne)
    have h5 := updAt_getElem?_eq _ own
      (fun t : Team => { t with trades_used := t.trades_used + 1 }) _ (h4own.trans h3)
    have g1 := updAt_getElem?_ne L.teams own other (fun t => swapCard t my their) hne
    have g2 := updAt_getElem?_eq (updAt L.teams own (fun t => swapCard t my their))
      other (fun t => swapCard t their my) B (g1.trans heqB)
    have g3 := updAt_getElem?_ne
      (updAt (updAt L.teams own (fun t => swapCard t my their)) other
        (fun t => swapCard t their my))
      own other
      (fun t : Team => { t with cost_spent := A.cost_spent - ca.cost + cb.cost }) hne
    have g4 := updAt_getElem?_eq _ other
      (fun t : Team => { t with cost_spent := B.cost_spent - cb.cost + ca.cost }) _
      (g3.trans g2)
    have g5 := updAt_getElem?_ne
      (updAt (updAt (updAt (updAt L.teams own (fun t => swapCard t my their)) other
        (fun t => swapCard t their my)) own
        (fun t : Team => { t with cost_spent := A.cost_spent - ca.cost + cb.cost })) other
        (fun t : Team => { t with cost_spent := B.cost_spent - cb.cost + ca.cost }))
      own other
      (fun t : Team => { t with trades_used := t.trades_used + 1 }) hne
    constructor
    · intro T hT
      rw [h5] at hT
      cases hT
      exact hcapA
    · intro T hT
      rw [g5, g4] at hT
      cases hT
      exact hcapB

/-- A boost purchase never touches any team's `cost_spent`. -/
theorem purchaseBoost_cost_spent (L : League) (ti : Nat) (key : String)
    (tgt : Option String) (ok : Bool) (m : String) (L' : League)
    (h : purchaseBoost L ti key tgt = some (ok, m, L')) :
    ∀ i : Nat, (L'.teams[i]?).map Team.cost_spent = (L.teams[i]?).map Team.cost_spent := by
  unfold purchaseBoost at h
  split at h
  case h_1 => exact absurd h (by simp)
  rename_i team heqT
  split at h
  case h_1 =>
    simp only [Option.some.injEq, Prod.mk.injEq] at h
    rw [← h.2.2]
    intro i
    rfl
  rename_i item heqI
  split at h
  · simp only [Option.some.injEq, Prod.mk.injEq] at h
    rw [← h.2.2]
    intro i
    rfl
  split at h
  · simp only [Option.some.injEq, Prod.mk.injEq] at h
    rw [← h.2.2]
    intro i
    rfl
  · simp only [Option.some.injEq, Prod.mk.injEq] at h
    rw [← h.2.2]
    intro i
    by_cases hi : ti = i
    · subst hi
      have hlt : ti < L.teams.length := by
        by_contra hge
        rw [List.getElem?_eq_none (by omega)] at heqT
        exact absurd heqT (by simp)
      simp only [List.getElem?_set_self hlt, heqT]
      rfl
    · simp [List.getElem?_set_ne hi]

end FCR

namespace FCR

/-- A draft turn taken while an affordable card exists keeps the team
at or under the cap, spending exactly the pick's cost. -/
theorem draftTurn_affordable_cap (cap : ℚ) (s : Bool) (pool : List Card)
    (teams : List Team) (ti : Nat) (T : Team) (pick : Card)
    (hT : teams[ti]? = some T)
    (hpick : bestAffordableCard pool T.cost_spent cap = some pick) :
    ∃ T', ((draftTurn cap s (pool, teams) ti).2)[ti]? = some T' ∧
      T'.cost_spent = T.cost_spent + pick.cost ∧
      T'.cost_spent ≤ cap := by
  have hlt : ti < teams.length := by
    by_contra hge
    rw [List.getElem?_eq_none (by omega)] at hT
    exact absurd hT (by simp)
  have hcap := bestAffordableCard_le pool T.cost_spent cap pick hpick
  unfold draftTurn
  dsimp only
  rw [hT]
  dsimp only
  rw [hpick]
  dsimp only
  cases s
  · exact ⟨_, List.getElem?_set_self hlt, rfl, hcap⟩
  · exact ⟨_, List.getElem?_set_self hlt, rfl, hcap⟩

/-- Claim C1, amended:  trades that would break the cap are rejected
and successful trades leave both involved teams at or under the cap;
boost purchases never change any team's `cost_spent`; a draft turn
taken while an affordable card exists stays under the cap — but (see
the counterexample) a draft turn with no affordable card assigns the
cheapest remaining card even when that breaks the cap. -/
theorem c1_cap_invariant :
    (∀ (L : League) (own : Nat) (my : String) (other : Nat) (their : String)
       (m : String) (L' : League),
       executeTrade L own my other their = some (true, m, L') →
       (∀ T, L'.teams[own]? = some T → T.cost_spent ≤ L.max_team_cost) ∧
       (∀ T, L'.teams[other]? = some T → T.cost_spent ≤ L.max_team_cost))
    ∧ (∀ (L : League) (ti : Nat) (key : String) (tgt : Option String)
         (ok : Bool) (m : String) (L' : League),
         purchaseBoost L ti key tgt = some (ok, m, L') →
         ∀ i : Nat, (L'.teams[i]?).map Team.cost_spent =
           (L.teams[i]?).map Team.cost_spent)
    ∧ (∀ (cap : ℚ) (s : Bool) (pool : List Card) (teams : List Team)
         (ti : Nat) (T : Team) (pick : Card),
         teams[ti]? = some T →
         bestAffordableCard pool T.cost_spent cap = some pick →
         ∃ T', ((draftTurn cap s (pool, teams) ti).2)[ti]? = some T' ∧
           T'.cost_spent = T.cost_spent + pick.cost ∧
           T'.cost_spent ≤ cap) :=
  ⟨executeTrade_success_cap, purchaseBoost_cost_spent, draftTurn_affordable_cap⟩

/-- One team, four active cards of cost 6 each under the 20-point cap:
the backup round finds no affordable card and the draft falls back to
the cheapest remaining card anyway. -/
def c1League : League :=
  { emptyLeague with
      teams := [mkTeam "Team A" [] none 0],
      cards := [("a", mkCard "a" 50 6), ("b", mkCard "b" 50 6),
                ("c", mkCard "c" 50 6), ("d", mkCard "d" 50 6)] }

/-- Counterexample to claim C1 as stated: the draft pushes the team to
`cost_spent = 24 > 20 = max_team_cost` instead of rejecting the pick —
the cap invariant is violated by `_fantasy_draft`'s fallback branch. -/
theorem c1_counterexample :
    ((fantasyDraft c1League (constRng 0)).1.teams.map Team.cost_spent = [24]) ∧
    c1League.max_team_cost = 20 := by
  constructor
  · with_unfolding_all decide
  · with_unfolding_all decide

/-- The league of C1's trade/boost witness instances. -/
def c1TradeLeague : League :=
  { emptyLeague with
      teams := [{ (mkTeam "Team A" ["x"] none 2) with shop_points_left := 10 },
                mkTeam "Team B" ["y"] none 3],
      cards := [("x", mkCard "x" 50 2), ("y", mkCard "y" 50 3)] }

/-- The state after the witness trade. -/
def c1TradeAfter : League :=
  ((executeTrade c1TradeLeague 0 "x" 1 "y").getD (false, "", emptyLeague)).2.2

/-- The state after the witness boost purchase. -/
def c1BoostAfter : League :=
  ((purchaseBoost c1TradeLeague 0 "atk_boost" (some "x")).getD
    (false, "", emptyLeague)).2.2

/-- Witness for C1's amended theorem: a concrete successful trade keeps
both teams under the cap, a concrete boost purchase leaves team 0's
`cost_spent` untouched, and a concrete affordable draft pick lands at
cost 6 ≤ 20. -/
theorem c1_cap_invariant_witness :
    ((c1TradeAfter.teams[0]?).getD (mkTeam "" [] none 99)).cost_spent ≤ 20 ∧
    (c1BoostAfter.teams[0]?).map Team.cost_spent =
      (c1TradeLeague.teams[0]?).map Team.cost_spent ∧
    (mkTeam "Team A" [] none 0).cost_spent + (mkCard "a" 50 6).cost ≤ 20 := by
  refine ⟨?_, ?_, ?_⟩
  · have h := (c1_cap_invariant.1 c1TradeLeague 0 "x" 1 "y" "Trade executed."
      c1TradeAfter (by with_unfolding_all decide)).1
    have h0 : c1TradeAfter.teams[0]? =
        some ((c1TradeAfter.teams[0]?).getD (mkTeam "" [] none 99)) := by
      with_unfolding_all decide
    have := h _ h0
    simpa using this
  · have h := c1_cap_invariant.2.1 c1TradeLeague 0 "atk_boost" (some "x")
      true ("Team A purchased +2 ATK (3 games)") c1BoostAfter
      (by with_unfolding_all decide) 0
    exact h
  · obtain ⟨T', -, he, hc⟩ := c1_cap_invariant.2.2 20 true [mkCard "a" 50 6]
      [mkTeam "Team A" [] none 0] 0 (mkTeam "Team A" [] none 0) (mkCard "a" 50 6)
      (by with_unfolding_all decide) (by with_unfolding_all decide)
    exact he ▸ hc

end FCR

namespace FCR

/-! C9 -/

/-- The multiset of card ids a team holds (starters plus backup). -/
def teamHolds (t : Team) : List String := t.roster ++ t.backup.toList

theorem replaceFirst_length (xs : List String) (old new : String) :
    (replaceFirst xs old new).length = xs.length := by
  induction xs with
  | nil => rfl
  | cons x rest ih =>
    unfold replaceFirst
    by_cases h : x = old <;> simp [h, ih]

theorem replaceFirst_perm (xs : List String) (old new : String)
    (h : old ∈ xs) :
    (old :: replaceFirst xs old new).Perm (new :: xs) := by
  induction xs with
  | nil => cases h
  | cons x rest ih =>
    unfold replaceFirst
    by_cases hx : x = old
    · subst hx
      simp only [if_true]
      exact List.Perm.swap new x rest
    · simp only [hx, if_false]
      have hmem : old ∈ rest := by
        rcases List.mem_cons.mp h with h1 | h1
        · exact absurd h1.symm hx
        · exact h1
      exact ((List.Perm.swap x old _).trans
        (List.Perm.cons x (ih hmem))).trans (List.Perm.swap new x rest)

theorem swapCard_roster_length (t : Team) (old new : String) :
    (swapCard t old new).roster.length = t.roster.length := by
  unfold swapCard
  by_cases h1 : old ∈ t.roster
  · simp [h1, replaceFirst_length]
  · by_cases h2 : t.backup = some old <;> simp [h1, h2]

theorem swapCard_holds_perm (t : Team) (old new : String)
    (h : old ∈ t.roster ∨ t.backup = some old) :
    (old :: teamHolds (swapCard t old new)).Perm (new :: teamHolds t) := by
  unfold swapCard teamHolds
  by_cases h1 : old ∈ t.roster
  · simp only [h1, if_true]
    show (old :: (replaceFirst t.roster old new ++ t.backup.toList)).Perm _
    have := (replaceFirst_perm t.roster old new h1).append_right t.backup.toList
    simpa using this
  · have h2 : t.backup = some old := h.resolve_left h1
    rw [if_neg h1, if_pos h2, h2]
    show (old :: (t.roster ++ [new])).Perm (new :: (t.roster ++ [old]))
    exact ((List.Perm.cons old (List.perm_append_singleton new t.roster)).trans
      (List.Perm.swap new old t.roster)).trans
      (List.Perm.cons new (List.perm_append_singleton old t.roster).symm)

/-- Claim C9, amended:  for a successful trade between two distinct
teams the total `cost_spent` of the pair is preserved, both roster
lengths are unchanged, each team's holdings change exactly by swapping
the traded card for the received one, and every other team is
untouched. -/
theorem c9_trade_swap (L : League) (own : Nat) (my : String)
    (other : Nat) (their : String) (m : String) (L' : League)
    (hne : own ≠ other)
    (h : executeTrade L own my other their = some (true, m, L')) :
    ∃ A B A' B',
      L.teams[own]? = some A ∧ L.teams[other]? = some B ∧
      L'.teams[own]? = some A' ∧ L'.teams[other]? = some B' ∧
      A'.cost_spent + B'.cost_spent = A.cost_spent + B.cost_spent ∧
      A'.roster.length = A.roster.length ∧
      B'.roster.length = B.roster.length ∧
      (my :: teamHolds A').Perm (their :: teamHolds A) ∧
      (their :: teamHolds B').Perm (my :: teamHolds B) ∧
      (∀ i : Nat, i ≠ own → i ≠ other → L'.teams[i]? = L.teams[i]?) := by
  obtain ⟨A, B, ca, cb, heqA, heqB, hca, hcb, hused, hownA, hownB, hcapA, hcapB, hL'⟩ :=
    executeTrade_success_shape L own my other their m L' h
  subst hL'
  have h1 := updAt_getElem?_eq L.teams own (fun t => swapCard t my their) A heqA
  have h2own := updAt_getElem?_ne (updAt L.teams own (fun t => swapCard t my their))
    other own (fun t => swapCard t their my) (Ne.symm hne)
  have h3 := updAt_getElem?_eq _ own
    (fun t : Team => { t with cost_spent := A.cost_spent - ca.cost + cb.cost }) _
    (h2own.trans h1)
  have h4own := updAt_getElem?_ne
    (updAt (updAt (updAt L.teams own (fun t => swapCard t my their)) other
      (fun t => swapCard t their my)) own
      (fun t : Team => { t with cost_spent := A.cost_spent - ca.cost + cb.cost }))
    other own
    (fun t : Team => { t with cost_spent := B.cost_spent - cb.cost + ca.cost }) (Ne.symm hne)
  have h5 := updAt_getElem?_eq _ own
    (fun t : Team => { t with trades_used := t.trades_used + 1 }) _ (h4own.trans h3)
  have g1 := updAt_getElem?_ne L.teams own other (fun t => swapCard t my their) hne
  have g2 := updAt_getElem?_eq (updAt L.teams own (fun t => swapCard t my their))
    other (fun t => swapCard t their my) B (g1.trans heqB)
  have g3 := updAt_getElem?_ne
    (updAt (updAt L.teams own (fun t => swapCard t my their)) other
      (fun t => swapCard t their my))
    own other
    (fun t : Team => { t with cost_spent := A.cost_spent - ca.cost + cb.cost }) hne
  have g4 := updAt_getElem?_eq _ other
    (fun t : Team => { t with cost_spent := B.cost_spent - cb.cost + ca.cost }) _
    (g3.trans g2)
  have g5 := updAt_getElem?_ne
    (updAt (updAt (updAt (updAt L.teams own (fun t => swapCard t my their)) other
      (fun t => swapCard t their my)) own
      (fun t : Team => { t with cost_spent := A.cost_spent - ca.cost + cb.cost })) other
      (fun t : Team => { t with cost_spent := B.cost_spent - cb.cost + ca.cost }))
    own other
    (fun t : Team => { t with trades_used := t.trades_used + 1 }) hne
  refine ⟨A, B, _, _, heqA, heqB, h5, g5.trans g4, ?_, ?_, ?_, ?_, ?_, ?_⟩
  · dsimp only
    ring
  · exact swapCard_roster_length A my their
  · exact swapCard_roster_length B their my
  · exact swapCard_holds_perm A my their hownA
  · exact swapCard_holds_perm B their my hownB
  · intro i hio hie
    have k1 := updAt_getElem?_ne L.teams own i (fun t => swapCard t my their) (Ne.symm hio)
    have k2 := updAt_getElem?_ne (updAt L.teams own (fun t => swapCard t my their))
      other i (fun t => swapCard t their my) (Ne.symm hie)
    have k3 := updAt_getElem?_ne
      (updAt (updAt L.teams own (fun t => swapCard t my their)) other
        (fun t => swapCard t their my))
      own i
      (fun t : Team => { t with cost_spent := A.cost_spent - ca.cost + cb.cost })
      (Ne.symm hio)
    have k4 := updAt_getElem?_ne
      (updAt (updAt (updAt L.teams own (fun t => swapCard t my their)) other
        (fun t => swapCard t their my)) own
        (fun t : Team => { t with cost_spent := A.cost_spent - ca.cost + cb.cost }))
      other i
      (fun t : Team => { t with cost_spent := B.cost_spent - cb.cost + ca.cost })
      (Ne.symm hie)
    have k5 := updAt_getElem?_ne
      (updAt (updAt (updAt (updAt L.teams own (fun t => swapCard t my their)) other
        (fun t => swapCard t their my)) own
        (fun t : Team => { t with cost_spent := A.cost_spent - ca.cost + cb.cost })) other
        (fun t : Team => { t with cost_spent := B.cost_spent - cb.cost + ca.cost }))
      own i
      (fun t : Team => { t with trades_used := t.trades_used + 1 })
      (Ne.symm hio)
    exact ((((k5.trans k4).trans k3).trans k2).trans k1)

/-- The one-team league of C9's counterexample: the team owns both
cards being "traded" with itself. -/
def c9SelfLeague : League :=
  { emptyLeague with
      teams := [mkTeam "Team A" ["x", "y"] none 5],
      cards := [("x", mkCard "x" 50 2), ("y", mkCard "y" 50 3)] }

/-- Counterexample to claim C9 as stated: a self-trade (both team
indices equal) succeeds, yet the involved team's `cost_spent` drops
from 5 to 4 — the claimed conservation of the involved teams' total
`cost_spent` fails (while the roster does not change at all). -/
theorem c9_counterexample :
    ((executeTrade c9SelfLeague 0 "x" 0 "y").map (fun t => t.1)) = some true ∧
    c9SelfLeague.teams.map Team.cost_spent = [5] ∧
    ((executeTrade c9SelfLeague 0 "x" 0 "y").map
      (fun t => t.2.2.teams.map Team.cost_spent)) = some [4] ∧
    ((executeTrade c9SelfLeague 0 "x" 0 "y").map
      (fun t => t.2.2.teams.map Team.roster)) = some [["x", "y"]] := by
  refine ⟨?_, ?_, ?_, ?_⟩ <;> with_unfolding_all decide

/-- Witness for C9's amended theorem at the concrete cross-team trade:
afterwards the two teams' spending still totals 5. -/
theorem c9_trade_swap_witness :
    ((c1TradeAfter.teams[0]?).map Team.cost_spent).getD 0 +
      ((c1TradeAfter.teams[1]?).map Team.cost_spent).getD 0 = 5 := by
  obtain ⟨A, B, A', B', hA, hB, hA', hB', hsum, -, -, -, -, -⟩ :=
    c9_trade_swap c1TradeLeague 0 "x" 1 "y" "Trade executed." c1TradeAfter
      (by decide) (by with_unfolding_all decide)
  rw [hA', hB']
  simp only [Option.map_some', Option.getD_some]
  rw [hsum]
  have e0 : c1TradeLeague.teams[0]? =
      some ({ (mkTeam "Team A" ["x"] none 2) with shop_points_left := 10 }) := by
    with_unfolding_all decide
  have e1 : c1TradeLeague.teams[1]? = some (mkTeam "Team B" ["y"] none 3) := by
    with_unfolding_all decide
  rw [e0] at hA
  rw [e1] at hB
  cases Option.some.inj hA
  cases Option.some.inj hB
  with_unfolding_all decide

end FCR

namespace FCR

/-! C2 -/

theorem digitChar_isDigit (d : Nat) (h : d < 10) :
    (Nat.digitChar d).isDigit = true := by
  interval_cases d <;> decide

theorem digitChar_ne_dash (d : Nat) (h : d < 10) : Nat.digitChar d ≠ '-' := by
  interval_cases d <;> decide

theorem digitChar_toNat (d : Nat) (h : d < 10) :
    (Nat.digitChar d).toNat - 48 = d := by
  interval_cases d <;> decide

theorem natDigits_ne_nil (n : Nat) : natDigits n ≠ [] := by
  rw [natDigits]
  split <;> simp

theorem natDigits_all_digit (n : Nat) : ∀ c ∈ natDigits n, c.isDigit = true := by
  induction n using Nat.strong_induction_on with
  | _ n ih =>
    rw [natDigits]
    split
    · intro c hc
      rcases List.mem_singleton.mp hc with rfl
      exact digitChar_isDigit n (by omega)
    · intro c hc
      rcases List.mem_append.mp hc with h1 | h1
      · exact ih (n / 10) (Nat.div_lt_self (by omega) (by omega)) c h1
      · rcases List.mem_singleton.mp h1 with rfl
        exact digitChar_isDigit (n % 10) (Nat.mod_lt n (by omega))

theorem natDigits_no_dash (n : Nat) : ∀ c ∈ natDigits n, c ≠ '-' := by
  intro c hc
  have := natDigits_all_digit n c hc
  intro hdash
  subst hdash
  exact absurd this (by decide)

theorem natDigits_foldl (n : Nat) :
    (natDigits n).foldl (fun m c => m * 10 + (c.toNat - 48)) 0 = n := by
  induction n using Nat.strong_induction_on with
  | _ n ih =>
    rw [natDigits]
    split
    · next h =>
      simp only [List.foldl_cons, List.foldl_nil, Nat.zero_mul, Nat.zero_add]
      exact digitChar_toNat n h
    · next h =>
      rw [List.foldl_append]
      simp only [List.foldl_cons, List.foldl_nil]
      rw [ih (n / 10) (Nat.div_lt_self (by omega) (by omega))]
      rw [digitChar_toNat (n % 10) (Nat.mod_lt n (by omega))]
      omega

theorem parseNatChars_natDigits (n : Nat) :
    parseNatChars (natDigits n) = some n := by
  unfold parseNatChars
  rw [if_pos]
  · rw [natDigits_foldl]
  · exact ⟨natDigits_ne_nil n, List.all_eq_true.mpr (natDigits_all_digit n)⟩

theorem splitDash_no_dash (xs : List Char) (h : ∀ c ∈ xs, c ≠ '-') :
    splitDash xs = [xs] := by
  induction xs with
  | nil => rfl
  | cons c rest ih =>
    unfold splitDash
    rw [if_neg (h c (List.mem_cons_self c rest))]
    rw [ih (fun c hc => h c (List.mem_cons_of_mem _ hc))]

theorem splitDash_append (xs ys : List Char)
    (hx : ∀ c ∈ xs, c ≠ '-') (hy : ∀ c ∈ ys, c ≠ '-') :
    splitDash (xs ++ '-' :: ys) = [xs, ys] := by
  induction xs with
  | nil =>
    show splitDash ('-' :: ys) = [[], ys]
    unfold splitDash
    rw [if_pos rfl, splitDash_no_dash ys hy]
  | cons c rest ih =>
    have hc : c ≠ '-' := hx c (List.mem_cons_self c rest)
    show splitDash (c :: (rest ++ '-' :: ys)) = [c :: rest, ys]
    unfold splitDash
    rw [if_neg hc, ih (fun d hd => hx d (List.mem_cons_of_mem _ hd))]

theorem parseRivKey_roundtrip (a b : Nat) :
    parseRivKey (natStr a ++ "-" ++ natStr b) = some (a, b) := by
  unfold parseRivKey
  have hdata : (natStr a ++ "-" ++ natStr b).data =
      (natDigits a ++ ['-']) ++ natDigits b := by
    with_unfolding_all rfl
  rw [hdata, List.append_assoc]
  rw [show (['-'] ++ natDigits b) = '-' :: natDigits b from rfl]
  rw [splitDash_append _ _ (natDigits_no_dash a) (natDigits_no_dash b)]
  dsimp only
  rw [parseNatChars_natDigits, parseNatChars_natDigits]

theorem rivalries_roundtrip (riv : List ((Nat × Nat) × Rivalry)) :
    riv.filterMap
      ((fun kv => Option.map (fun k => (k, kv.2)) (parseRivKey kv.1)) ∘
       (fun kv => (natStr kv.1.1 ++ "-" ++ natStr kv.1.2, kv.2))) = riv := by
  induction riv with
  | nil => rfl
  | cons kv rest ih =>
    simp only [List.filterMap_cons, Function.comp_apply, parseRivKey_roundtrip,
      Option.map_some']
    rw [ih]

/-- Claim C2, amended:  on states with an empty `past_seasons` archive
and no seeded playoffs, save-then-load is the identity: every field —
teams with their nested boosts, cards, schedule, results, transactions,
rivalries (parsed back from their string keys), shop catalog and seed —
comes back exactly.  (A nonempty archive breaks the identity, see the
counterexample.) -/
theorem c2_save_load_roundtrip (L : League)
    (h1 : L.past_seasons = []) (h2 : L.playoffs = none) :
    (load (save L)).1 = L := by
  obtain ⟨sea, d, cap, teams, cards, sch, res, tr, riv, po, ps, cat, seed⟩ := L
  simp only at h1 h2
  subst h1; subst h2
  unfold load save
  simp [League.mk.injEq, rivalries_roundtrip]

/-- Witness for C2's amended theorem: a state with a nonempty rivalry
table round-trips exactly. -/
theorem c2_save_load_roundtrip_witness :
    (load (save { emptyLeague with
      rivalries := [((0, 1), ⟨2, 1, 1⟩), ((3, 12), ⟨1, 0, 1⟩)] })).1 =
    { emptyLeague with
      rivalries := [((0, 1), ⟨2, 1, 1⟩), ((3, 12), ⟨1, 0, 1⟩)] } :=
  c2_save_load_roundtrip _ rfl rfl

/-- A league with one archived season under the integer key 1. -/
def c2League : League :=
  { emptyLeague with
      past_seasons := [(PKey.pInt 1,
        ⟨[], ⟨none, none⟩, ⟨[], []⟩, [], [], none, []⟩)] }

/-- Counterexample to claim C2 as stated: `json.dump` stringifies the
integer `past_seasons` key and `load` keeps the string, so the loaded
state differs from the saved one (`pInt 1` became `pStr "1"`). -/
theorem c2_counterexample :
    (load (save c2League)).1 ≠ c2League ∧
    (load (save c2League)).1.past_seasons.map Prod.fst = [PKey.pStr "1"] ∧
    c2League.past_seasons.map Prod.fst = [PKey.pInt 1] := by
  refine ⟨?_, ?_, ?_⟩
  · intro h
    have := congrArg (fun x => x.past_seasons.map Prod.fst) h
    simp only at this
    rw [show (load (save c2League)).1.past_seasons.map Prod.fst =
      [PKey.pStr "1"] from by with_unfolding_all decide] at this
    rw [show c2League.past_seasons.map Prod.fst = [PKey.pInt 1] from by
      with_unfolding_all decide] at this
    exact absurd this (by decide)
  · with_unfolding_all decide
  · with_unfolding_all decide

end FCR

namespace FCR

/-! C4 -/

/-- The retirement obligation: a card at or past its lifespan must
carry the retired flag. -/
def overAgeRetired (kv : String × Card) : Prop :=
  kv.2.age ≥ kv.2.lifespan → kv.2.retired = true

theorem randFloat_lt_threshold (v : Nat) (h : v % 1000000 < 600000) :
    ((v % 1000000 : Nat) : ℚ) / 1000000 < 6 / 10 := by
  rw [div_lt_iff₀ (by norm_num)]
  have : ((v % 1000000 : Nat) : ℚ) < 600000 := by exact_mod_cast h
  linarith

theorem retireStep_vals (acc : List (String × Card) × List IdName × Rng)
    (kv : String × Card) : (retireStep acc kv).2.2.vals = acc.2.2.vals := by
  unfold retireStep
  dsimp only
  split
  · rfl
  split
  · unfold Rng.randFloat Rng.next
    dsimp only
    split <;> rfl
  · rfl

theorem retireStep_overAge (vals0 : Nat → Nat)
    (hlow : ∀ n, vals0 n % 1000000 < 600000)
    (acc : List (String × Card) × List IdName × Rng) (kv : String × Card)
    (hvals : acc.2.2.vals = vals0)
    (hdone : ∀ kv' ∈ acc.1, overAgeRetired kv') :
    ∀ kv' ∈ (retireStep acc kv).1, overAgeRetired kv' := by
  intro kv' hmem
  unfold retireStep at hmem
  dsimp only at hmem
  split at hmem
  · next hret =>
    rcases List.mem_append.mp hmem with h1 | h1
    · exact hdone kv' h1
    · rcases List.mem_singleton.mp h1 with rfl
      intro _
      exact hret
  · split at hmem
    · next hage =>
      unfold Rng.randFloat Rng.next at hmem
      dsimp only at hmem
      rw [if_pos] at hmem
      · rcases List.mem_append.mp hmem with h1 | h1
        · exact hdone kv' h1
        · rcases List.mem_singleton.mp h1 with rfl
          intro _
          rfl
      · rw [hvals]
        exact randFloat_lt_threshold _ (hlow _)
    · next hage =>
      rcases List.mem_append.mp hmem with h1 | h1
      · exact hdone kv' h1
      · rcases List.mem_singleton.mp h1 with rfl
        intro hcontra
        exact absurd hcontra hage

theorem retirePhase_overAge (vals0 : Nat → Nat)
    (hlow : ∀ n, vals0 n % 1000000 < 600000) :
    ∀ (cards : List (String × Card))
      (acc : List (String × Card) × List IdName × Rng),
      acc.2.2.vals = vals0 →
      (∀ kv' ∈ acc.1, overAgeRetired kv') →
      ∀ kv' ∈ (cards.foldl retireStep acc).1, overAgeRetired kv' := by
  intro cards
  induction cards with
  | nil => intro acc _ hdone kv' hmem; exact hdone kv' hmem
  | cons kv rest ih =>
    intro acc hvals hdone
    simp only [List.foldl_cons]
    refine ih (retireStep acc kv) ?_ ?_
    · rw [retireStep_vals, hvals]
    · exact retireStep_overAge vals0 hlow acc kv hvals hdone

theorem alSet_mem {α : Type} (m : List (String × α)) (k : String) (v : α) :
    ∀ kv ∈ alSet m k v, kv = (k, v) ∨ kv ∈ m := by
  induction m with
  | nil =>
    intro kv hmem
    unfold alSet at hmem
    rcases List.mem_singleton.mp hmem with rfl
    exact Or.inl rfl
  | cons hd rest ih =>
    intro kv hmem
    unfold alSet at hmem
    split at hmem
    · rcases List.mem_cons.mp hmem with h1 | h1
      · exact Or.inl h1
      · exact Or.inr (List.mem_cons_of_mem hd h1)
    · rcases List.mem_cons.mp hmem with h1 | h1
      · exact Or.inr (h1 ▸ List.mem_cons_self hd rest)
      · rcases ih kv h1 with h2 | h2
        · exact Or.inl h2
        · exact Or.inr (List.mem_cons_of_mem hd h2)

theorem forceRetire_overAge (chosen : List Card) :
    ∀ (cards : List (String × Card)) (outs : List IdName),
      (∀ kv ∈ cards, overAgeRetired kv) →
      ∀ kv ∈ (forceRetire cards chosen outs).1, overAgeRetired kv := by
  induction chosen with
  | nil => intro cards outs h kv hmem; exact h kv hmem
  | cons c rest ih =>
    intro cards outs h kv hmem
    have hmem' : kv ∈ (forceRetire (alSet cards c.id { c with retired := true })
        rest (outs ++ [⟨c.id, c.name⟩])).1 := hmem
    refine ih _ _ ?_ kv hmem'
    intro kv' hm
    rcases alSet_mem cards c.id { c with retired := true } kv' hm with h1 | h1
    · rw [h1]
      intro _
      rfl
    · exact h kv' h1

theorem makeRookie_overAge (season i : Nat) (r : Rng) (k : String) :
    overAgeRetired (k, (makeRookie season i r).1) := by
  unfold makeRookie Rng.randint Rng.choice Rng.next
  dsimp only
  intro h
  exfalso
  simp only at h
  omega

theorem rookieFold_overAge (idxs : List Nat) (season : Nat) :
    ∀ (acc : List (String × Card) × List IdName × Rng),
      (∀ kv ∈ acc.1, overAgeRetired kv) →
      ∀ kv ∈ (idxs.foldl
        (fun (acc : List (String × Card) × List IdName × Rng) i =>
          let cs := acc.1
          let rs := acc.2.1
          let r0 := acc.2.2
          let cr := makeRookie season i r0
          (alSet cs cr.1.id cr.1, rs ++ [⟨cr.1.id, cr.1.name⟩], cr.2)) acc).1,
        overAgeRetired kv := by
  induction idxs with
  | nil => intro acc h kv hmem; exact h kv hmem
  | cons i rest ih =>
    intro acc h kv hmem
    simp only [List.foldl_cons] at hmem
    refine ih _ ?_ kv hmem
    intro kv' hmem'
    rcases alSet_mem acc.1 (makeRookie season i acc.2.2).1.id
      (makeRookie season i acc.2.2).1 kv' hmem' with h1 | h1
    · rw [h1]
      exact makeRookie_overAge season i acc.2.2 _
    · exact h kv' h1

end FCR

namespace FCR

theorem listSwap_mem (xs : List α) (i j : Nat) (c : α)
    (h : c ∈ listSwap xs i j) : c ∈ xs := by
  unfold listSwap at h
  split at h
  · next xi xj hi hj =>
    rcases List.mem_or_eq_of_mem_set h with h1 | h1
    · rcases List.mem_or_eq_of_mem_set h1 with h2 | h2
      · exact h2
      · subst h2
        exact List.getElem?_mem hj
    · subst h1
      exact List.getElem?_mem hi
  · exact h

theorem shuffleGo_mem (i : Nat) :
    ∀ (xs : List α) (r : Rng) (c : α), c ∈ (shuffleGo xs i r).1 → c ∈ xs := by
  induction i with
  | zero => intro xs r c h; exact h
  | succ i' ih =>
    intro xs r c h
    unfold shuffleGo at h
    dsimp only at h
    exact listSwap_mem _ _ _ c (ih _ _ c h)

theorem shuffle_mem (r : Rng) (xs : List α) (c : α)
    (h : c ∈ (r.shuffle xs).1) : c ∈ xs :=
  shuffleGo_mem _ xs _ c h

set_option maxRecDepth 8000 in
/-- Claim C4, amended:  the retirement pass is probabilistic — a card
whose age has reached its lifespan is retired exactly on a sub-0.6
draw: whenever every pending draw is below 0.6 the pass retires every
at-or-past-lifespan card (and never un-retires anyone), but a draw of
0.6 or more lets such a card survive (see the counterexample); the pool
`_fantasy_draft` considers contains no retired card. -/
theorem c4_retirement :
    (∀ (L : League) (r : Rng) (outs rook : List IdName) (L' : League) (r' : Rng),
       (∀ n, r.vals n % 1000000 < 600000) →
       retireAndAddRookies L r = some (outs, rook, L', r') →
       ∀ kv ∈ L'.cards, kv.2.age ≥ kv.2.lifespan → kv.2.retired = true)
    ∧ (∀ (L : League) (r : Rng),
       ∀ c ∈ (r.shuffle ((L.cards.map Prod.snd).filter (fun c => ¬c.retired))).1,
         c.retired = false) := by
  constructor
  · intro L r outs rook L' r' hlow h
    unfold retireAndAddRookies at h
    have hP1 : ∀ kv ∈ (retirePhase L.cards r).1, overAgeRetired kv := by
      unfold retirePhase
      exact retirePhase_overAge r.vals hlow L.cards ([], [], r) rfl (by simp)
    dsimp only at h
    split at h
    · exact absurd h (by simp)
    · next cards2 outs2 r2 hstep2 =>
      have hP2 : ∀ kv ∈ cards2, overAgeRetired kv := by
        split at hstep2
        · split at hstep2
          · split at hstep2
            · exact absurd hstep2 (by simp)
            · simp only [Option.some.injEq, Prod.mk.injEq] at hstep2
              rw [← hstep2.1]
              exact forceRetire_overAge _ _ _ hP1
          · simp only [Option.some.injEq, Prod.mk.injEq] at hstep2
            rw [← hstep2.1]
            exact hP1
        · rw [if_neg (by simp)] at hstep2
          simp only [Option.some.injEq, Prod.mk.injEq] at hstep2
          rw [← hstep2.1]
          exact hP1
      have hP3 : ∀ kv ∈ ((List.range 4).foldl
          (fun (acc : List (String × Card) × List IdName × Rng) i =>
            let cs := acc.1
            let rs := acc.2.1
            let r0 := acc.2.2
            let cr := makeRookie L.season i r0
            (alSet cs cr.1.id cr.1, rs ++ [⟨cr.1.id, cr.1.name⟩], cr.2))
          (cards2, [], r2)).1, overAgeRetired kv :=
        rookieFold_overAge (List.range 4) L.season (cards2, [], r2) hP2
      split at h
      · simp only [Option.some.injEq, Prod.mk.injEq] at h
        obtain ⟨-, -, hL', -⟩ := h
        rw [← hL']
        intro kv hmem hage
        exact forceRetire_overAge _ _ _ hP3 kv hmem hage
      · simp only [Option.some.injEq, Prod.mk.injEq] at h
        obtain ⟨-, -, hL', -⟩ := h
        rw [← hL']
        intro kv hmem hage
        exact hP3 kv hmem hage
  · intro L r c hmem
    have := List.mem_filter.mp (shuffle_mem r _ c hmem)
    simpa using this.2

end FCR

namespace FCR

/-- A league whose only card sits exactly at its lifespan. -/
def c4League : League :=
  { emptyLeague with
      cards := [("x", { mkCard "x" 50 5 with age := 6, lifespan := 6 })] }

/-- Counterexample to claim C4 as stated: the pass draws 0.9 (not below
0.6) for the at-lifespan card, so `retire_and_add_rookies` completes
with the card still active — a card whose age has reached its lifespan
is not necessarily retired. -/
theorem c4_counterexample :
    ((alGet c4League.cards "x").map (fun c => decide (c.age ≥ c.lifespan) &&
      !c.retired) = some true) ∧
    ((retireAndAddRookies c4League (constRng 900000)).map
      (fun t => (alGet t.2.2.1.cards "x").map
        (fun c => (c.retired, decide (c.age ≥ c.lifespan)))) =
      some (some (false, true))) := by
  constructor
  · with_unfolding_all decide
  · with_unfolding_all decide

/-- The result of the C4 witness run (every draw of the constant-zero
stream is below 0.6). -/
def c4WitnessRun : List IdName × List IdName × League × Rng :=
  (retireAndAddRookies c4League (constRng 0)).getD ([], [], emptyLeague, constRng 0)

/-- The at-lifespan card as it appears after the witness run. -/
def c4WitnessCard : Card :=
  (alGet c4WitnessRun.2.2.1.cards "x").getD (mkCard "x" 50 5)

/-- Witness for C4's amended theorem: with all draws below 0.6 the
at-lifespan card really is retired by the pass, and the concrete draft
pool of the witness league contains no retired card. -/
theorem c4_retirement_witness :
    c4WitnessCard.retired = true ∧
    (∀ c ∈ ((constRng 0).shuffle
      ((c4League.cards.map Prod.snd).filter (fun c => ¬c.retired))).1,
      c.retired = false) := by
  constructor
  · have hrun : retireAndAddRookies c4League (constRng 0) =
        some (c4WitnessRun.1, c4WitnessRun.2.1, c4WitnessRun.2.2.1,
          c4WitnessRun.2.2.2) := by
      with_unfolding_all rfl
    have hmem : ("x", c4WitnessCard) ∈ c4WitnessRun.2.2.1.cards := by
      with_unfolding_all decide
    have hage : c4WitnessCard.age ≥ c4WitnessCard.lifespan := by
      with_unfolding_all decide
    exact c4_retirement.1 c4League (constRng 0) _ _ _ _
      (fun n => by simp [constRng]) hrun ("x", c4WitnessCard) hmem hage
  · exact c4_retirement.2 c4League (constRng 0)

end FCR

namespace FCR

/-! C10 -/

/-- Total wins across the league's teams. -/
def sumWins (teams : List Team) : Nat := (teams.map Team.wins).sum

/-- Total losses across the league's teams. -/
def sumLosses (teams : List Team) : Nat := (teams.map Team.losses).sum

theorem sum_map_set_add (g : α → Nat) (xs : List α) :
    ∀ (i : Nat) (x y : α) (k : Nat), xs[i]? = some x → g y = g x + k →
    ((xs.set i y).map g).sum = (xs.map g).sum + k := by
  induction xs with
  | nil => intro i x y k hx _; exact absurd hx (by simp)
  | cons a rest ih =>
    intro i x y k hx hy
    cases i with
    | zero =>
      simp only [List.getElem?_cons_zero, Option.some.injEq] at hx
      subst hx
      simp only [List.set_cons_zero, List.map_cons, List.sum_cons, hy]
      omega
    | succ i' =>
      simp only [List.getElem?_cons_succ] at hx
      simp only [List.set_cons_succ, List.map_cons, List.sum_cons,
        ih i' x y k hx hy]
      omega

theorem sum_map_updAt_add (g : α → Nat) (f : α → α) (xs : List α) (i : Nat)
    (x : α) (k : Nat) (hx : xs[i]? = some x) (hf : g (f x) = g x + k) :
    ((updAt xs i f).map g).sum = (xs.map g).sum + k := by
  unfold updAt
  rw [hx]
  exact sum_map_set_add g xs i x (f x) k hx hf

theorem applyBoosts_wins (T : Team) (b : ℚ) : (applyBoosts T b).2.wins = T.wins := rfl

theorem applyBoosts_losses (T : Team) (b : ℚ) :
    (applyBoosts T b).2.losses = T.losses := rfl

theorem teamStrength_record (cards : List (String × Card)) (T : Team) (r : Rng) :
    (teamStrength cards T r).2.1.wins = T.wins ∧
    (teamStrength cards T r).2.1.losses = T.losses := by
  unfold teamStrength
  cases T.backup with
  | none => exact ⟨rfl, rfl⟩
  | some bid =>
    dsimp only
    split
    · split
      · split <;> exact ⟨rfl, rfl⟩
      · exact ⟨rfl, rfl⟩
    · exact ⟨rfl, rfl⟩

/-- `_simulate_match` never touches win/loss totals, the results log,
the schedule, or the team count. -/
theorem simMatch_frame (L : League) (a b : Nat) (r : Rng) (out : ℤ × ℤ × String)
    (L' : League) (r' : Rng) (h : simMatch L a b r = some (out, L', r')) :
    sumWins L'.teams = sumWins L.teams ∧
    sumLosses L'.teams = sumLosses L.teams ∧
    L'.results = L.results ∧ L'.schedule = L.schedule ∧
    L'.teams.length = L.teams.length ∧ L'.day = L.day := by
  unfold simMatch at h
  split at h
  case h_1 => exact absurd h (by simp)
  next home hhome =>
  split at h
  next sh home1 r1 heq1 =>
  rcases hj1 : r1.randint 0 10 with ⟨j1, r2⟩
  rw [hj1] at h
  dsimp only at h
  split at h
  case h_1 => exact absurd h (by simp)
  next away haway =>
  simp only [Option.some.injEq, Prod.mk.injEq] at h
  obtain ⟨-, hL', -⟩ := h
  subst hL'
  have hw1 : home1.wins = home.wins := by
    have := (teamStrength_record L.cards home r).1
    rw [heq1] at this
    exact this
  have hl1 : home1.losses = home.losses := by
    have := (teamStrength_record L.cards home r).2
    rw [heq1] at this
    exact this
  refine ⟨?_, ?_, rfl, rfl, by simp, rfl⟩
  · show sumWins ((L.teams.set a home1).set b
      (teamStrength L.cards away r2).2.1) = sumWins L.teams
    unfold sumWins
    rw [sum_map_set_add Team.wins _ b away _ 0 haway (by
      rw [(teamStrength_record L.cards away r2).1]; omega)]
    rw [sum_map_set_add Team.wins _ a home home1 0 hhome (by omega)]
    omega
  · show sumLosses ((L.teams.set a home1).set b
      (teamStrength L.cards away r2).2.1) = sumLosses L.teams
    unfold sumLosses
    rw [sum_map_set_add Team.losses _ b away _ 0 haway (by
      rw [(teamStrength_record L.cards away r2).2]; omega)]
    rw [sum_map_set_add Team.losses _ a home home1 0 hhome (by omega)]
    omega

/-- Both updates of `_apply_result` combined: one win added at the
winner's slot, one loss at the loser's. -/
theorem updAt_win_loss_counts (teams : List Team) (wi li : Nat)
    (f1 f2 : Team → Team)
    (hf1 : ∀ t, (f1 t).wins = t.wins + 1 ∧ (f1 t).losses = t.losses)
    (hf2 : ∀ t, (f2 t).wins = t.wins ∧ (f2 t).losses = t.losses + 1)
    (tw tl : Team) (hwi : teams[wi]? = some tw) (hli : teams[li]? = some tl) :
    sumWins (updAt (updAt teams wi f1) li f2) = sumWins teams + 1 ∧
    sumLosses (updAt (updAt teams wi f1) li f2) = sumLosses teams + 1 ∧
    (updAt (updAt teams wi f1) li f2).length = teams.length := by
  have hlt : li < teams.length := by
    by_contra hge
    rw [List.getElem?_eq_none (by omega)] at hli
    exact absurd hli (by simp)
  obtain ⟨y, hy⟩ : ∃ y, (updAt teams wi f1)[li]? = some y :=
    ⟨_, List.getElem?_eq_getElem (by rw [updAt_length]; exact hlt)⟩
  refine ⟨?_, ?_, by rw [updAt_length, updAt_length]⟩
  · unfold sumWins
    rw [sum_map_updAt_add Team.wins f2 _ li y 0 hy (by rw [(hf2 y).1]; omega)]
    rw [sum_map_updAt_add Team.wins f1 teams wi tw 1 hwi (hf1 tw).1]
  · unfold sumLosses
    rw [sum_map_updAt_add Team.losses f2 _ li y 1 hy (hf2 y).2]
    rw [sum_map_updAt_add Team.losses f1 teams wi tw 0 hwi
      (by rw [(hf1 tw).2]; omega)]

/-- `_apply_result` hands out exactly one win and one loss. -/
theorem applyResult_counts (teams : List Team) (hi ai : Nat) (w : Bool)
    (th ta : Team) (hth : teams[hi]? = some th) (hta : teams[ai]? = some ta) :
    sumWins (applyResult teams hi ai w) = sumWins teams + 1 ∧
    sumLosses (applyResult teams hi ai w) = sumLosses teams + 1 ∧
    (applyResult teams hi ai w).length = teams.length := by
  cases w
  · unfold applyResult
    simp only [Bool.false_eq_true, if_false]
    exact updAt_win_loss_counts teams ai hi _ _ (fun t => ⟨rfl, rfl⟩)
      (fun t => ⟨rfl, rfl⟩) ta th hta hth
  · unfold applyResult
    simp only [if_true]
    exact updAt_win_loss_counts teams hi ai _ _ (fun t => ⟨rfl, rfl⟩)
      (fun t => ⟨rfl, rfl⟩) th ta hth hta

end FCR

namespace FCR

theorem processGames_counts (games : List (Nat × Nat × Nat)) :
    ∀ (L : League) (recaps : List Recap) (r : Rng) (rec' : List Recap)
      (L' : League) (r' : Rng),
      processGames L games recaps r = some (rec', L', r') →
      sumWins L'.teams = sumWins L.teams + games.length ∧
      sumLosses L'.teams = sumLosses L.teams + games.length ∧
      L'.results.length = L.results.length + games.length := by
  induction games with
  | nil =>
    intro L recaps r rec' L' r' h
    unfold processGames at h
    simp only [Option.some.injEq, Prod.mk.injEq] at h
    obtain ⟨-, hL, -⟩ := h
    subst hL
    simp
  | cons g rest ih =>
    obtain ⟨d, a, b⟩ := g
    intro L recaps r rec' L' r' h
    unfold processGames at h
    split at h
    case h_2 => exact absurd h (by simp)
    next home away hhome haway =>
    cases hm : simMatch L a b r with
    | none => rw [hm] at h; exact absurd h (by simp)
    | some out3 =>
      obtain ⟨⟨hs, ascore, det⟩, L1, r1⟩ := out3
      rw [hm] at h
      dsimp only at h
      obtain ⟨hsw, hsl, hres, hsch, hlen, hday⟩ := simMatch_frame L a b r _ _ _ hm
      have ha' : a < L1.teams.length := by
        have : a < L.teams.length := by
          by_contra hge
          rw [List.getElem?_eq_none (by omega)] at hhome
          exact absurd hhome (by simp)
        omega
      have hb' : b < L1.teams.length := by
        have : b < L.teams.length := by
          by_contra hge
          rw [List.getElem?_eq_none (by omega)] at haway
          exact absurd haway (by simp)
        omega
      obtain ⟨th, hth⟩ : ∃ th, L1.teams[a]? = some th :=
        ⟨_, List.getElem?_eq_getElem ha'⟩
      obtain ⟨ta, hta⟩ : ∃ ta, L1.teams[b]? = some ta :=
        ⟨_, List.getElem?_eq_getElem hb'⟩
      obtain ⟨haw, hal, halen⟩ :=
        applyResult_counts L1.teams a b (decide (ascore < hs)) th ta hth hta
      obtain ⟨ihw, ihl, ihr⟩ := ih _ _ _ _ _ _ h
      simp only at ihw ihl ihr
      refine ⟨?_, ?_, ?_⟩
      · rw [ihw]
        show sumWins (applyResult L1.teams a b _) + _ = _
        rw [haw, hsw]
        simp [List.length_cons]
        omega
      · rw [ihl]
        show sumLosses (applyResult L1.teams a b _) + _ = _
        rw [hal, hsl]
        simp [List.length_cons]
        omega
      · rw [ihr]
        show (L1.results ++ [_]).length + _ = _
        rw [List.length_append, hres]
        simp [List.length_cons]
        omega

theorem simulateNextDay_counts (L : League) (r : Rng) (recs : List Recap)
    (L' : League) (r' : Rng) (h : simulateNextDay L r = some (recs, L', r')) :
    sumWins L'.teams = sumWins L.teams +
      (L.schedule.filter (fun g => g.1 = L.day)).length ∧
    sumLosses L'.teams = sumLosses L.teams +
      (L.schedule.filter (fun g => g.1 = L.day)).length ∧
    L'.results.length = L.results.length +
      (L.schedule.filter (fun g => g.1 = L.day)).length := by
  unfold simulateNextDay at h
  simp only at h
  by_cases hemp : (List.filter (fun g => decide (g.1 = L.day)) L.schedule).isEmpty
  · rw [if_pos hemp] at h
    rw [List.isEmpty_iff] at hemp
    rw [show (L.schedule.filter fun g => g.1 = L.day) = [] from hemp]
    split at h <;>
      · simp only [Option.some.injEq, Prod.mk.injEq] at h
        obtain ⟨-, hL, -⟩ := h
        subst hL
        simp
  · rw [if_neg hemp] at h
    cases hpg : processGames L (List.filter (fun g => decide (g.1 = L.day)) L.schedule) [] r with
    | none => rw [hpg] at h; exact absurd h (by simp)
    | some out =>
      obtain ⟨recs2, L2, r2⟩ := out
      rw [hpg] at h
      simp only [Option.some.injEq, Prod.mk.injEq] at h
      obtain ⟨-, hL, -⟩ := h
      subst hL
      exact processGames_counts _ L [] r recs2 L2 r2 hpg

/-- An arbitrary number of successive `simulate_next_day` calls. -/
def iterateSim : Nat → League → Rng → Option (League × Rng)
  | 0, L, r => some (L, r)
  | n + 1, L, r =>
    match simulateNextDay L r with
    | none => none
    | some (_, L', r') => iterateSim n L' r'

/-- The balance invariant of claim C10. -/
def winLossBalanced (L : League) : Prop :=
  sumWins L.teams = sumLosses L.teams ∧ sumWins L.teams = L.results.length

theorem simulateNextDay_balanced (L : League) (r : Rng) (recs : List Recap)
    (L' : League) (r' : Rng) (h : simulateNextDay L r = some (recs, L', r'))
    (hb : winLossBalanced L) : winLossBalanced L' := by
  obtain ⟨h1, h2, h3⟩ := simulateNextDay_counts L r recs L' r' h
  obtain ⟨b1, b2⟩ := hb
  exact ⟨by omega, by omega⟩

theorem iterateSim_balanced (n : Nat) :
    ∀ (L : League) (r : Rng) (L' : League) (r' : Rng),
      iterateSim n L r = some (L', r') → winLossBalanced L →
      winLossBalanced L' := by
  induction n with
  | zero =>
    intro L r L' r' h hb
    unfold iterateSim at h
    simp only [Option.some.injEq, Prod.mk.injEq] at h
    exact h.1 ▸ hb
  | succ n' ih =>
    intro L r L' r' h hb
    unfold iterateSim at h
    cases hs : simulateNextDay L r with
    | none => rw [hs] at h; exact absurd h (by simp)
    | some out =>
      obtain ⟨recs, L1, r1⟩ := out
      rw [hs] at h
      exact ih L1 r1 L' r' h (simulateNextDay_balanced L r recs L1 r1 hs hb)

/-- Claim C10:  from a freshly reset state (all records zero, empty
results log), after any number of `simulate_next_day` calls the total
wins equal the total losses and both equal the number of recorded
results — every resolved game contributes exactly one win, one loss and
one recap. -/
theorem c10_win_loss_results_balance (n : Nat) (L : League) (r : Rng)
    (L' : League) (r' : Rng)
    (hfresh : ∀ t ∈ L.teams, t.wins = 0 ∧ t.losses = 0)
    (hres : L.results = [])
    (h : iterateSim n L r = some (L', r')) :
    sumWins L'.teams = sumLosses L'.teams ∧
    sumWins L'.teams = L'.results.length := by
  have hw0 : sumWins L.teams = 0 := by
    unfold sumWins
    rw [List.sum_eq_zero]
    intro x hx
    rcases List.mem_map.mp hx with ⟨t, ht, rfl⟩
    exact (hfresh t ht).1
  have hl0 : sumLosses L.teams = 0 := by
    unfold sumLosses
    rw [List.sum_eq_zero]
    intro x hx
    rcases List.mem_map.mp hx with ⟨t, ht, rfl⟩
    exact (hfresh t ht).2
  exact iterateSim_balanced n L r L' r' h ⟨by omega, by rw [hw0, hres]; rfl⟩

/-- A fresh two-team league with two scheduled games. -/
def c10League : League :=
  { emptyLeague with
      teams := [mkTeam "Team A" [] none 0, mkTeam "Team B" [] none 0],
      schedule := [(1, 0, 1), (2, 1, 0)] }

/-- The state after three simulated days of the witness league. -/
def c10After : League :=
  ((iterateSim 3 c10League (constRng 1)).getD (emptyLeague, constRng 1)).1

/-- Witness for C10 at the concrete league after three days. -/
theorem c10_win_loss_results_balance_witness :
    sumWins c10After.teams = sumLosses c10After.teams ∧
    sumWins c10After.teams = c10After.results.length :=
  c10_win_loss_results_balance 3 c10League (constRng 1) c10After
    ((iterateSim 3 c10League (constRng 1)).getD (emptyLeague, constRng 1)).2
    (by decide) rfl (by with_unfolding_all rfl)

end FCR

namespace FCR

theorem alGet_mem {κ α : Type} [DecidableEq κ] (m : List (κ × α)) (k : κ) (v : α)
    (h : alGet m k = some v) : (k, v) ∈ m := by
  unfold alGet at h
  cases hf : List.find? (fun kv => kv.1 = k) m with
  | none => rw [hf] at h; exact absurd h (by simp)
  | some kv =>
    rw [hf] at h
    simp only [Option.some.injEq] at h
    have hm := List.mem_of_find?_eq_some hf
    have hp := List.find?_some hf
    simp only [decide_eq_true_eq] at hp
    rw [← h, ← hp]
    simpa using hm

theorem teamStrength_name (cards : List (String × Card)) (T : Team) (r : Rng) :
    (teamStrength cards T r).2.1.name = T.name := by
  unfold teamStrength applyBoosts
  cases T.backup with
  | none => rfl
  | some bid =>
    dsimp only

theorem getElem?_name_set (l : List Team) (i : Nat) (x : Team) (hi : i < l.length)
    (hx : x.name = l[i].name) (j : Nat) :
    ((l.set i x)[j]?.map Team.name) = (l[j]?.map Team.name) := by
  by_cases hij : i = j
  · subst hij
    rw [List.getElem?_set_self hi, List.getElem?_eq_getElem hi]
    simp [hx]
  · rw [List.getElem?_set_ne hij]

/-- When both indices are in range `_simulate_match` always succeeds,
and it changes neither the team count, the playoff dict, nor any team's
name. -/
theorem simMatch_total (L : League) (a b : Nat) (r : Rng)
    (ha : a < L.teams.length) (hb : b < L.teams.length) :
    ∃ (out : ℤ × ℤ × String) (L2 : League) (r2 : Rng),
      simMatch L a b r = some (out, L2, r2) ∧
      L2.teams.length = L.teams.length ∧ L2.playoffs = L.playoffs ∧
      ∀ j : Nat, (L2.teams[j]?.map Team.name) = (L.teams[j]?.map Team.name) := by
  unfold simMatch
  rw [List.getElem?_eq_getElem ha]
  dsimp only
  rcases h1 : teamStrength L.cards L.teams[a] r with ⟨sh, home1, r1⟩
  dsimp only
  rcases hj1 : r1.randint 0 10 with ⟨j1, r2⟩
  dsimp only
  have hb1 : b < (L.teams.set a home1).length := by simpa using hb
  rw [List.getElem?_eq_getElem hb1]
  dsimp only
  rcases h2 : teamStrength L.cards (L.teams.set a home1)[b] r2 with ⟨sa, away1, r3⟩
  dsimp only
  rcases hj2 : r3.randint 0 10 with ⟨j2, r4⟩
  dsimp only
  have hn1 : home1.name = L.teams[a].name := by
    have := teamStrength_name L.cards L.teams[a] r
    rw [h1] at this
    exact this
  have hn2 : away1.name = (L.teams.set a home1)[b].name := by
    have := teamStrength_name L.cards (L.teams.set a home1)[b] r2
    rw [h2] at this
    exact this
  refine ⟨_, _, _, rfl, by simp, rfl, ?_⟩
  intro j
  show (((L.teams.set a home1).set b away1)[j]?.map Team.name) = _
  rw [getElem?_name_set (L.teams.set a home1) b away1 hb1 hn2 j,
    getElem?_name_set L.teams a home1 ha hn1 j]

/-- Termination and outcome of the inner series loop: with in-range
indices the loop ends with exactly one side at `needed` wins. -/
theorem playSeries_total (fuel : Nat) :
    ∀ (L : League) (a b needed aW bW : Nat) (r : Rng),
      (needed - aW) + (needed - bW) ≤ fuel →
      a < L.teams.length → b < L.teams.length →
      aW ≤ needed → bW ≤ needed → ¬(aW = needed ∧ bW = needed) →
      ∃ aW2 bW2 L2 r2,
        playSeries L a b needed aW bW r = some (aW2, bW2, L2, r2) ∧
        L2.teams.length = L.teams.length ∧ L2.playoffs = L.playoffs ∧
        ((aW2 = needed ∧ bW2 < needed) ∨ (bW2 = needed ∧ aW2 < needed)) := by
  induction fuel with
  | zero =>
    intro L a b needed aW bW r hfuel ha hb haW hbW hne
    exact absurd ⟨by omega, by omega⟩ hne
  | succ n ih =>
    intro L a b needed aW bW r hfuel ha hb haW hbW hne
    by_cases hg : aW < needed ∧ bW < needed
    · obtain ⟨out, L1, r1, hm, hlen1, hpo1, hnm⟩ := simMatch_total L a b r ha hb
      obtain ⟨hs, ascore, det⟩ := out
      rw [playSeries, dif_pos hg, hm]
      dsimp only
      by_cases hcmp : hs > ascore
      · rw [if_pos hcmp]
        obtain ⟨aW2, bW2, L2, r2, hrec, hlen2, hpo2, hdone⟩ :=
          ih L1 a b needed (aW + 1) bW r1 (by omega) (by omega) (by omega)
            (by omega) hbW (by omega)
        exact ⟨aW2, bW2, L2, r2, hrec, by omega, hpo2.trans hpo1, hdone⟩
      · rw [if_neg hcmp]
        obtain ⟨aW2, bW2, L2, r2, hrec, hlen2, hpo2, hdone⟩ :=
          ih L1 a b needed aW (bW + 1) r1 (by omega) (by omega) (by omega)
            haW (by omega) (by omega)
        exact ⟨aW2, bW2, L2, r2, hrec, by omega, hpo2.trans hpo1, hdone⟩
    · rw [playSeries, dif_neg hg]
      exact ⟨aW, bW, L, r, rfl, rfl, rfl, by omega⟩

end FCR

namespace FCR

theorem chunkPairs_length : ∀ ws : List Nat, (chunkPairs ws).length = ws.length / 2
  | [] => rfl
  | [x] => by
    rw [show chunkPairs [x] = [] from rfl]
    simp only [List.length_nil, List.length_cons]
  | a :: b :: rest => by
    show (chunkPairs (a :: b :: rest)).length = _
    unfold chunkPairs
    simp only [List.length_cons, chunkPairs_length rest]
    omega

theorem chunkPairs_mem : ∀ (ws : List Nat) (ab : Nat × Nat),
    ab ∈ chunkPairs ws → ab.1 ∈ ws ∧ ab.2 ∈ ws
  | [], ab, h => by simp [chunkPairs] at h
  | [_], ab, h => by simp [chunkPairs] at h
  | a :: b :: rest, ab, h => by
    unfold chunkPairs at h
    rcases List.mem_cons.mp h with rfl | h2
    · simp
    · have := chunkPairs_mem rest ab h2
      constructor
      · simp [this.1]
      · simp [this.2]

theorem findIdx?_some_of_pred (p : Team → Bool) :
    ∀ (l : List Team) (j : Nat) (hj : j < l.length), p (l.get ⟨j, hj⟩) = true →
      ∃ i, l.findIdx? p = some i ∧ i < l.length := by
  intro l
  induction l with
  | nil => intro j hj _; exact absurd hj (by simp)
  | cons a t ih =>
    intro j hj hp
    by_cases hpa : p a
    · exact ⟨0, by simp [hpa], by simp⟩
    · cases j with
      | zero => exact absurd hp (by simpa using hpa)
      | succ j2 =>
        have hj2 : j2 < t.length := by simpa using hj
        have hp2 : p (t.get ⟨j2, hj2⟩) = true := by simpa using hp
        obtain ⟨i, hi, hilt⟩ := ih j2 hj2 hp2
        refine ⟨i + 1, ?_, by simp; omega⟩
        rw [List.findIdx?_cons, if_neg (by simpa using hpa), List.findIdx?_succ, hi]
        rfl

/-- One pair of a playoff round: the series is resolved to a majority,
its tally stored, its archived record appended, its winner recorded. -/
theorem playPair_spec (L : League) (p : Playoffs) (rnd length : Nat) (ab : Nat × Nat)
    (ws : List Nat) (r : Rng)
    (ha : ab.1 < L.teams.length) (hb : ab.2 < L.teams.length)
    (hinv : ∀ kv ∈ p.series, kv.2.a_wins ≤ length / 2 + 1 ∧
      kv.2.b_wins ≤ length / 2 + 1 ∧
      ¬(kv.2.a_wins = length / 2 + 1 ∧ kv.2.b_wins = length / 2 + 1)) :
    ∃ (x y w : Nat) (nA nB : String) (L2 : League) (r2 : Rng),
      playPair L p rnd length ab ws r = some (L2,
        { p with series := alSet p.series (pairKey ab.1 ab.2) ⟨x, y⟩,
                 results := p.results ++
                   [⟨rnd, nA, nB, length, toString x ++ "-" ++ toString y,
                     if x > y then nA else nB⟩] },
        ws ++ [if x > y then ab.1 else ab.2], r2) ∧
      (w = ab.1 ∨ w = ab.2) ∧ w = (if x > y then ab.1 else ab.2) ∧
      L2.teams.length = L.teams.length ∧ L2.playoffs = L.playoffs ∧
      ((x = length / 2 + 1 ∧ y < length / 2 + 1) ∨
        (y = length / 2 + 1 ∧ x < length / 2 + 1)) := by
  have hsr : ((alGet p.series (pairKey ab.1 ab.2)).getD ⟨0, 0⟩).a_wins ≤ length / 2 + 1 ∧
      ((alGet p.series (pairKey ab.1 ab.2)).getD ⟨0, 0⟩).b_wins ≤ length / 2 + 1 ∧
      ¬(((alGet p.series (pairKey ab.1 ab.2)).getD ⟨0, 0⟩).a_wins = length / 2 + 1 ∧
        ((alGet p.series (pairKey ab.1 ab.2)).getD ⟨0, 0⟩).b_wins = length / 2 + 1) := by
    cases halg : alGet p.series (pairKey ab.1 ab.2) with
    | none => refine ⟨by simp, by simp, ?_⟩; simp
    | some v =>
      simpa using hinv (pairKey ab.1 ab.2, v) (alGet_mem p.series (pairKey ab.1 ab.2) v halg)
  obtain ⟨aW2, bW2, L1, r1, hps, hlen1, hpo1, hmaj⟩ :=
    playSeries_total (2 * (length / 2 + 1)) L ab.1 ab.2 (length / 2 + 1)
      ((alGet p.series (pairKey ab.1 ab.2)).getD ⟨0, 0⟩).a_wins
      ((alGet p.series (pairKey ab.1 ab.2)).getD ⟨0, 0⟩).b_wins r
      (by omega) ha hb hsr.1 hsr.2.1 hsr.2.2
  have ha1 : ab.1 < L1.teams.length := by omega
  have hb1 : ab.2 < L1.teams.length := by omega
  refine ⟨aW2, bW2, if aW2 > bW2 then ab.1 else ab.2,
    (L1.teams[ab.1]).name, (L1.teams[ab.2]).name, L1, r1, ?_, ?_, rfl,
    hlen1, hpo1, hmaj⟩
  · unfold playPair
    dsimp only
    rw [hps]
    dsimp only
    rw [List.getElem?_eq_getElem ha1, List.getElem?_eq_getElem hb1]
  · by_cases hw : aW2 > bW2
    · left; simp [hw]
    · right; simp [hw]

end FCR

namespace FCR

/-- A whole playoff round's series: one winner and one archived result
per pair, every series resolved to the majority threshold. -/
theorem playPairs_spec (rnd length : Nat) (pairs : List (Nat × Nat)) :
    ∀ (L : League) (p : Playoffs) (ws : List Nat) (r : Rng),
      (∀ ab ∈ pairs, ab.1 < L.teams.length ∧ ab.2 < L.teams.length) →
      (∀ kv ∈ p.series, kv.2.a_wins ≤ length / 2 + 1 ∧
        kv.2.b_wins ≤ length / 2 + 1 ∧
        ¬(kv.2.a_wins = length / 2 + 1 ∧ kv.2.b_wins = length / 2 + 1)) →
      ∃ (L2 : League) (p2 : Playoffs) (nws : List Nat) (nres : List SeriesResult) (r2 : Rng),
        playPairs L p rnd length pairs ws r = some (L2, p2, ws ++ nws, r2) ∧
        nws.length = pairs.length ∧
        (∀ w ∈ nws, ∃ ab, ab ∈ pairs ∧ (w = ab.1 ∨ w = ab.2)) ∧
        L2.teams.length = L.teams.length ∧ L2.playoffs = L.playoffs ∧
        p2.round = p.round ∧ p2.round_lengths = p.round_lengths ∧
        p2.lengths_live = p.lengths_live ∧ p2.pairs = p.pairs ∧
        p2.champion = p.champion ∧
        p2.results = p.results ++ nres ∧ nres.length = pairs.length ∧
        (∀ res ∈ nres, res.round = rnd ∧ res.best_of = length ∧
          ∃ x y, res.final = toString x ++ "-" ++ toString y ∧
            ((x = length / 2 + 1 ∧ y < length / 2 + 1) ∨
              (y = length / 2 + 1 ∧ x < length / 2 + 1))) := by
  induction pairs with
  | nil =>
    intro L p ws r hbnd hinv
    exact ⟨L, p, [], [], r, by simp [playPairs], rfl, by simp, rfl, rfl, rfl, rfl,
      rfl, rfl, rfl, by simp, rfl, by simp⟩
  | cons ab rest ih =>
    intro L p ws r hbnd hinv
    obtain ⟨x, y, w, nA, nB, L1, r1, heq1, hwor, hwif, hlen1, hpo1, hmaj⟩ :=
      playPair_spec L p rnd length ab ws r (hbnd ab (by simp)).1 (hbnd ab (by simp)).2 hinv
    have hinv1 : ∀ kv ∈ alSet p.series (pairKey ab.1 ab.2) (⟨x, y⟩ : SeriesRec),
        kv.2.a_wins ≤ length / 2 + 1 ∧ kv.2.b_wins ≤ length / 2 + 1 ∧
        ¬(kv.2.a_wins = length / 2 + 1 ∧ kv.2.b_wins = length / 2 + 1) := by
      intro kv hkv
      rcases alSet_mem p.series (pairKey ab.1 ab.2) ⟨x, y⟩ kv hkv with h | h
      · subst h
        dsimp only
        omega
      · exact hinv kv h
    have hbnd1 : ∀ ab2 ∈ rest, ab2.1 < L1.teams.length ∧ ab2.2 < L1.teams.length := by
      intro ab2 h2
      have := hbnd ab2 (by simp [h2])
      omega
    obtain ⟨L2, p2, nws, nres, r2, heq2, hnwslen, hnwsmem, hlen2, hpo2, hrd, hrl, hll,
      hprs, hch, hres, hnreslen, hresall⟩ :=
      ih L1 ({ p with
                series := alSet p.series (pairKey ab.1 ab.2) ⟨x, y⟩,
                results := p.results ++
                  [⟨rnd, nA, nB, length, toString x ++ "-" ++ toString y,
                    if x > y then nA else nB⟩] } : Playoffs)
        (ws ++ [if x > y then ab.1 else ab.2]) r1 hbnd1 hinv1
    refine ⟨L2, p2, (if x > y then ab.1 else ab.2) :: nws,
      (⟨rnd, nA, nB, length, toString x ++ "-" ++ toString y,
        if x > y then nA else nB⟩ : SeriesResult) :: nres, r2, ?_, by simpa using hnwslen,
      ?_, by omega, hpo2.trans hpo1, hrd, hrl, hll, hprs, hch, ?_, by simpa using hnreslen, ?_⟩
    · show playPairs L p rnd length (ab :: rest) ws r = _
      unfold playPairs
      rw [heq1]
      dsimp only
      rw [heq2]
      simp
    · intro w2 hw2
      rcases List.mem_cons.mp hw2 with rfl | h2
      · refine ⟨ab, by simp, ?_⟩
        by_cases hxy : x > y
        · simp [hxy]
        · simp [hxy]
      · obtain ⟨ab2, hab2, hor⟩ := hnwsmem w2 h2
        exact ⟨ab2, by simp [hab2], hor⟩
    · rw [hres]
      simp
    · intro res hres2
      rcases List.mem_cons.mp hres2 with rfl | h2
      · exact ⟨rfl, rfl, x, y, rfl, hmaj⟩
      · exact hresall res h2

end FCR

namespace FCR

/-- A playoff round with at least two pairs: every series resolved, the
bracket re-seeded with half as many pairs and fresh series tallies, the
round counter advanced. -/
theorem simulatePlayoffRound_next (L : League) (p : Playoffs) (r : Rng)
    (hpo : L.playoffs = some p)
    (hbnd : ∀ ab ∈ p.pairs, ab.1 < L.teams.length ∧ ab.2 < L.teams.length)
    (hfresh : ∀ kv ∈ p.series, kv.2 = (⟨0, 0⟩ : SeriesRec))
    (h2 : 2 ≤ p.pairs.length) :
    ∃ (L2 : League) (p2 : Playoffs) (r2 : Rng),
      simulatePlayoffRound L r = some (L2, r2) ∧
      L2.playoffs = some p2 ∧ L2.teams.length = L.teams.length ∧
      p2.round = p.round + 1 ∧ p2.round_lengths = p.round_lengths ∧
      p2.lengths_live = p.lengths_live ∧
      p2.pairs.length = p.pairs.length / 2 ∧
      (∀ ab ∈ p2.pairs, ab.1 < L2.teams.length ∧ ab.2 < L2.teams.length) ∧
      (∀ kv ∈ p2.series, kv.2 = (⟨0, 0⟩ : SeriesRec)) ∧
      p2.champion = p.champion ∧
      ∃ nres, p2.results = p.results ++ nres ∧ nres.length = p.pairs.length ∧
        (∀ res ∈ nres, res.round = p.round ∧ res.best_of = lengthFor p p.round ∧
          ∃ x y, res.final = toString x ++ "-" ++ toString y ∧
            ((x = res.best_of / 2 + 1 ∧ y < res.best_of / 2 + 1) ∨
              (y = res.best_of / 2 + 1 ∧ x < res.best_of / 2 + 1))) := by
  have hinv : ∀ kv ∈ p.series, kv.2.a_wins ≤ (lengthFor p p.round) / 2 + 1 ∧
      kv.2.b_wins ≤ (lengthFor p p.round) / 2 + 1 ∧
      ¬(kv.2.a_wins = (lengthFor p p.round) / 2 + 1 ∧
        kv.2.b_wins = (lengthFor p p.round) / 2 + 1) := by
    intro kv hkv
    rw [hfresh kv hkv]
    refine ⟨by simp, by simp, ?_⟩
    simp
  obtain ⟨L1, p1, nws, nres, r1, heq, hnwslen, hnwsmem, hlen1, hpo1, hrd, hrl, hll,
    hprs, hch, hres, hnreslen, hresall⟩ :=
    playPairs_spec p.round (lengthFor p p.round) p.pairs L p [] r hbnd hinv
  rw [List.nil_append] at heq
  have heqround : simulatePlayoffRound L r = some
      ({ L1 with playoffs := some ({ p1 with
            round := p.round + 1,
            pairs := chunkPairs nws,
            series := (chunkPairs nws).map
              (fun ab => (pairKey ab.1 ab.2, (⟨0, 0⟩ : SeriesRec))) } : Playoffs) }, r1) := by
    unfold simulatePlayoffRound
    rw [hpo]
    dsimp only
    rw [heq]
    dsimp only
    rw [if_neg (by omega)]
  refine ⟨_, _, r1, heqround, rfl, ?_, ?_, ?_, ?_, ?_, ?_, ?_, ?_, nres, ?_, hnreslen, ?_⟩
  · show L1.teams.length = L.teams.length
    exact hlen1
  · rfl
  · show p1.round_lengths = p.round_lengths
    exact hrl
  · show p1.lengths_live = p.lengths_live
    exact hll
  · show (chunkPairs nws).length = p.pairs.length / 2
    rw [chunkPairs_length nws, hnwslen]
  · intro ab hab
    obtain ⟨h1, h2b⟩ := chunkPairs_mem nws ab hab
    obtain ⟨pr1, hpr1, hor1⟩ := hnwsmem ab.1 h1
    obtain ⟨pr2, hpr2, hor2⟩ := hnwsmem ab.2 h2b
    have hb1 := hbnd pr1 hpr1
    have hb2 := hbnd pr2 hpr2
    constructor
    · show ab.1 < L1.teams.length
      omega
    · show ab.2 < L1.teams.length
      omega
  · intro kv hkv
    obtain ⟨ab2, -, hab2⟩ := List.mem_map.mp hkv
    rw [← hab2]
  · show p1.champion = p.champion
    exact hch
  · show p1.results = p.results ++ nres
    exact hres
  · intro res hr
    obtain ⟨hh1, hh2, x, y, hf, hm⟩ := hresall res hr
    refine ⟨hh1, hh2, x, y, hf, ?_⟩
    rw [hh2]
    exact hm

/-- The last playoff round (a single pair): its series is resolved and
the winning team's name is written as champion. -/
theorem simulatePlayoffRound_final (L : League) (p : Playoffs) (r : Rng)
    (hpo : L.playoffs = some p)
    (hbnd : ∀ ab ∈ p.pairs, ab.1 < L.teams.length ∧ ab.2 < L.teams.length)
    (hfresh : ∀ kv ∈ p.series, kv.2 = (⟨0, 0⟩ : SeriesRec))
    (h1 : p.pairs.length = 1) :
    ∃ (L2 : League) (p2 : Playoffs) (r2 : Rng) (w0 : Nat) (champT : Team),
      simulatePlayoffRound L r = some (L2, r2) ∧
      L2.playoffs = some p2 ∧ L2.teams.length = L.teams.length ∧
      w0 < L2.teams.length ∧ L2.teams[w0]? = some champT ∧
      p2.champion = some champT.name ∧ p2.round = p.round ∧
      ∃ nres, p2.results = p.results ++ nres ∧ nres.length = 1 ∧
        (∀ res ∈ nres, res.round = p.round ∧ res.best_of = lengthFor p p.round ∧
          ∃ x y, res.final = toString x ++ "-" ++ toString y ∧
            ((x = res.best_of / 2 + 1 ∧ y < res.best_of / 2 + 1) ∨
              (y = res.best_of / 2 + 1 ∧ x < res.best_of / 2 + 1))) := by
  have hinv : ∀ kv ∈ p.series, kv.2.a_wins ≤ (lengthFor p p.round) / 2 + 1 ∧
      kv.2.b_wins ≤ (lengthFor p p.round) / 2 + 1 ∧
      ¬(kv.2.a_wins = (lengthFor p p.round) / 2 + 1 ∧
        kv.2.b_wins = (lengthFor p p.round) / 2 + 1) := by
    intro kv hkv
    rw [hfresh kv hkv]
    refine ⟨by simp, by simp, ?_⟩
    simp
  obtain ⟨L1, p1, nws, nres, r1, heq, hnwslen, hnwsmem, hlen1, hpo1, hrd, hrl, hll,
    hprs, hch, hres, hnreslen, hresall⟩ :=
    playPairs_spec p.round (lengthFor p p.round) p.pairs L p [] r hbnd hinv
  rw [List.nil_append] at heq
  obtain ⟨w0, hw0⟩ := List.length_eq_one.mp (hnwslen.trans h1)
  have hw0mem : w0 ∈ nws := by rw [hw0]; simp
  obtain ⟨pr, hpr, hor⟩ := hnwsmem w0 hw0mem
  have hb := hbnd pr hpr
  have hw0lt : w0 < L1.teams.length := by omega
  have heqround : simulatePlayoffRound L r = some
      ({ L1 with playoffs := some ({ p1 with
            champion := some (L1.teams.get ⟨w0, hw0lt⟩).name } : Playoffs) }, r1) := by
    unfold simulatePlayoffRound
    rw [hpo]
    dsimp only
    rw [heq]
    dsimp only
    rw [hw0]
    rw [if_pos (by simp)]
    simp only [List.getD_cons_zero]
    rw [List.getElem?_eq_getElem hw0lt]
    rfl
  refine ⟨_, _, r1, w0, L1.teams.get ⟨w0, hw0lt⟩, heqround, rfl, hlen1, hw0lt, ?_,
    rfl, ?_, nres, ?_, hnreslen.trans h1, ?_⟩
  · show L1.teams[w0]? = _
    rw [List.getElem?_eq_getElem hw0lt]
    rfl
  · show p1.round = p.round
    exact hrd
  · show p1.results = p.results ++ nres
    exact hres
  · intro res hr
    obtain ⟨hh1, hh2, x, y, hf, hm⟩ := hresall res hr
    refine ⟨hh1, hh2, x, y, hf, ?_⟩
    rw [hh2]
    exact hm

end FCR

namespace FCR

/-- Any index drawn from the top-16 seed list is a valid team index. -/
theorem take16_seed_bound (n k d : Nat) (cmp : Nat → Nat → Bool)
    (hk : k < (((List.range n).mergeSort cmp).take 16).length) :
    (((List.range n).mergeSort cmp).take 16).getD k d < n := by
  rw [List.getD_eq_getElem?_getD, List.getElem?_eq_getElem hk, Option.getD_some]
  have hmem : (((List.range n).mergeSort cmp).take 16)[k] ∈
      ((List.range n).mergeSort cmp).take 16 := List.getElem_mem hk
  have h2 := List.take_subset 16 _ hmem
  rw [List.mem_mergeSort, List.mem_range] at h2
  exact h2

/-- What `start_playoffs` writes: a fresh round-1 bracket of 8 pairs of
valid team indices with zeroed series, the canonical length table, no
results and no champion. -/
theorem startPlayoffs_spec (L L0 : League) (h : startPlayoffs L = some L0) :
    ∃ p0, L0.playoffs = some p0 ∧ L0.teams = L.teams ∧
      p0.round = 1 ∧ p0.lengths_live = true ∧
      p0.round_lengths = [(1, 3), (2, 5), (3, 5), (4, 7)] ∧
      p0.pairs.length = 8 ∧
      (∀ ab ∈ p0.pairs, ab.1 < L.teams.length ∧ ab.2 < L.teams.length) ∧
      (∀ kv ∈ p0.series, kv.2 = (⟨0, 0⟩ : SeriesRec)) ∧
      p0.champion = none ∧ p0.results = [] := by
  unfold startPlayoffs at h
  dsimp only at h
  split at h
  case isTrue => exact absurd h (by simp)
  case isFalse hlen =>
    simp only [Option.some.injEq] at h
    subst h
    have hlen2 : 16 ≤ (((List.range L.teams.length).mergeSort
        (fun i j => decide (((L.teams[j]?.map Team.wins).getD 0) ≤
          ((L.teams[i]?.map Team.wins).getD 0)))).take 16).length := by
      omega
    refine ⟨_, rfl, rfl, rfl, rfl, rfl, by simp, ?_, ?_, rfl, rfl⟩
    · intro ab hab
      obtain ⟨i, hi, hab2⟩ := List.mem_map.mp hab
      rw [List.mem_range] at hi
      rw [← hab2]
      constructor
      · exact take16_seed_bound L.teams.length i 0 _ (by omega)
      · exact take16_seed_bound L.teams.length (15 - i) 0 _ (by omega)
    · intro kv hkv
      obtain ⟨ab2, -, hab2⟩ := List.mem_map.mp hkv
      rw [← hab2]

theorem playoffLoop_step (fuel : Nat) (L : League) (p : Playoffs) (r : Rng)
    (L1 : League) (r1 : Rng)
    (hpo : L.playoffs = some p) (hch : p.champion = none)
    (hr : simulatePlayoffRound L r = some (L1, r1)) :
    playoffLoop (fuel + 1) L r = playoffLoop fuel L1 r1 := by
  show (match L.playoffs with
    | none => none
    | some p =>
      if p.champion.isSome then some (L, r)
      else
        match simulatePlayoffRound L r with
        | none => none
        | some (L2, r2) => playoffLoop fuel L2 r2) = _
  rw [hpo]
  dsimp only
  rw [hch]
  simp only [Option.isSome_none, Bool.false_eq_true, if_false]
  rw [hr]

theorem playoffLoop_done (fuel : Nat) (L : League) (p : Playoffs) (r : Rng)
    (hpo : L.playoffs = some p) (hch : p.champion.isSome = true) :
    playoffLoop (fuel + 1) L r = some (L, r) := by
  show (match L.playoffs with
    | none => none
    | some p =>
      if p.champion.isSome then some (L, r)
      else
        match simulatePlayoffRound L r with
        | none => none
        | some (L2, r2) => playoffLoop fuel L2 r2) = _
  rw [hpo]
  dsimp only
  rw [hch]
  simp

end FCR

namespace FCR

/-- Claim C3:  for every league in which `start_playoffs` has seeded the
bracket (which requires at least 16 teams), `simulate_playoffs_to_champion`
terminates, plays exactly 4 rounds — 8 best-of-3 series, then 4 best-of-5,
then 2 best-of-5, then 1 best-of-7, each series ending the moment one side
reaches the majority-win threshold of its length — and returns exactly one
champion index within `[0, team count)`. -/
theorem c3_playoffs_four_rounds (L L0 : League) (r : Rng)
    (hstart : startPlayoffs L = some L0) :
    ∃ (champ : Nat) (L4 : League) (r4 : Rng) (p4 : Playoffs),
      simulatePlayoffsToChampion L0 r = some (some champ, L4, r4) ∧
      champ < L4.teams.length ∧ L4.teams.length = L0.teams.length ∧
      L4.playoffs = some p4 ∧ p4.round = 4 ∧
      p4.results.map (fun res => (res.round, res.best_of)) =
        List.replicate 8 (1, 3) ++ List.replicate 4 (2, 5) ++
        List.replicate 2 (3, 5) ++ [(4, 7)] ∧
      (∀ res ∈ p4.results, ∃ x y, res.final = toString x ++ "-" ++ toString y ∧
        ((x = res.best_of / 2 + 1 ∧ y < res.best_of / 2 + 1) ∨
          (y = res.best_of / 2 + 1 ∧ x < res.best_of / 2 + 1))) := by
  obtain ⟨p0, hpo0, hteams0, hrd0, hll0, hrl0, hpl0, hbnd0x, hfresh0, hch0, hres0⟩ :=
    startPlayoffs_spec L L0 hstart
  have hbnd0 : ∀ ab ∈ p0.pairs, ab.1 < L0.teams.length ∧ ab.2 < L0.teams.length := by
    rw [hteams0]
    exact hbnd0x
  have hlf0 : lengthFor p0 p0.round = 3 := by
    unfold lengthFor
    rw [hll0, hrl0, hrd0]
    rfl
  obtain ⟨L1, p1, r1, hr1, hpo1, hlen1, hrd1, hrl1, hll1, hpl1, hbnd1, hfresh1, hch1,
    nres1, hres1, hnres1len, hnres1all⟩ :=
    simulatePlayoffRound_next L0 p0 r hpo0 hbnd0 hfresh0 (by omega)
  have hlf1 : lengthFor p1 p1.round = 5 := by
    unfold lengthFor
    rw [hll1, hll0, hrl1, hrl0, hrd1, hrd0]
    rfl
  obtain ⟨L2, p2, r2, hr2, hpo2, hlen2, hrd2, hrl2, hll2, hpl2, hbnd2, hfresh2, hch2,
    nres2, hres2, hnres2len, hnres2all⟩ :=
    simulatePlayoffRound_next L1 p1 r1 hpo1 hbnd1 hfresh1 (by omega)
  have hlf2 : lengthFor p2 p2.round = 5 := by
    unfold lengthFor
    rw [hll2, hll1, hll0, hrl2, hrl1, hrl0, hrd2, hrd1, hrd0]
    rfl
  obtain ⟨L3, p3, r3, hr3, hpo3, hlen3, hrd3, hrl3, hll3, hpl3, hbnd3, hfresh3, hch3,
    nres3, hres3, hnres3len, hnres3all⟩ :=
    simulatePlayoffRound_next L2 p2 r2 hpo2 hbnd2 hfresh2 (by omega)
  have hlf3 : lengthFor p3 p3.round = 7 := by
    unfold lengthFor
    rw [hll3, hll2, hll1, hll0, hrl3, hrl2, hrl1, hrl0, hrd3, hrd2, hrd1, hrd0]
    rfl
  obtain ⟨L4v, p4v, r4v, w0, champT, hr4, hpo4, hlen4, hw0, hchampT, hch4, hrd4,
    nres4, hres4, hnres4len, hnres4all⟩ :=
    simulatePlayoffRound_final L3 p3 r3 hpo3 hbnd3 hfresh3 (by omega)
  have hch1n : p1.champion = none := hch1.trans hch0
  have hch2n : p2.champion = none := hch2.trans hch1n
  have hch3n : p3.champion = none := hch3.trans hch2n
  have hloop : playoffLoop (p0.pairs.length + 2) L0 r = some (L4v, r4v) := by
    rw [hpl0]
    calc playoffLoop 10 L0 r
        = playoffLoop 9 L1 r1 := playoffLoop_step 9 L0 p0 r L1 r1 hpo0 hch0 hr1
      _ = playoffLoop 8 L2 r2 := playoffLoop_step 8 L1 p1 r1 L2 r2 hpo1 hch1n hr2
      _ = playoffLoop 7 L3 r3 := playoffLoop_step 7 L2 p2 r2 L3 r3 hpo2 hch2n hr3
      _ = playoffLoop 6 L4v r4v := playoffLoop_step 6 L3 p3 r3 L4v r4v hpo3 hch3n hr4
      _ = some (L4v, r4v) := playoffLoop_done 5 L4v p4v r4v hpo4 (by rw [hch4]; rfl)
  have hgetw : L4v.teams.get ⟨w0, hw0⟩ = champT := by
    rw [List.getElem?_eq_getElem hw0] at hchampT
    exact Option.some.inj hchampT
  obtain ⟨i, hfind, hilt⟩ :=
    findIdx?_some_of_pred (fun T => T.name = champT.name) L4v.teams w0 hw0
      (by rw [hgetw]; simp)
  have heqn : simulatePlayoffsToChampion L0 r = some (some i, L4v, r4v) := by
    unfold simulatePlayoffsToChampion
    rw [hpo0]
    dsimp only
    rw [hloop]
    dsimp only
    rw [hpo4]
    dsimp only
    rw [hch4]
    dsimp only
    rw [hfind]
  have hres04 : p4v.results = nres1 ++ nres2 ++ nres3 ++ nres4 := by
    rw [hres4, hres3, hres2, hres1, hres0]
    simp
  have hrdv0 : p0.round = 1 := hrd0
  have hrdv1 : p1.round = 2 := by omega
  have hrdv2 : p2.round = 3 := by omega
  have hrdv3 : p3.round = 4 := by omega
  refine ⟨i, L4v, r4v, p4v, heqn, hilt, by omega, hpo4, by omega, ?_, ?_⟩
  · rw [hres04]
    simp only [List.map_append]
    have hm1 : nres1.map (fun res => (res.round, res.best_of)) =
        List.replicate 8 (1, 3) := by
      rw [List.eq_replicate_iff]
      refine ⟨by rw [List.length_map, hnres1len, hpl0], ?_⟩
      intro b hb
      obtain ⟨res, hresm, hb2⟩ := List.mem_map.mp hb
      obtain ⟨hh1, hh2, -⟩ := hnres1all res hresm
      rw [← hb2, hh2, hlf0, hh1, hrdv0]
    have hm2 : nres2.map (fun res => (res.round, res.best_of)) =
        List.replicate 4 (2, 5) := by
      rw [List.eq_replicate_iff]
      refine ⟨by rw [List.length_map, hnres2len]; omega, ?_⟩
      intro b hb
      obtain ⟨res, hresm, hb2⟩ := List.mem_map.mp hb
      obtain ⟨hh1, hh2, -⟩ := hnres2all res hresm
      rw [← hb2, hh2, hlf1, hh1, hrdv1]
    have hm3 : nres3.map (fun res => (res.round, res.best_of)) =
        List.replicate 2 (3, 5) := by
      rw [List.eq_replicate_iff]
      refine ⟨by rw [List.length_map, hnres3len]; omega, ?_⟩
      intro b hb
      obtain ⟨res, hresm, hb2⟩ := List.mem_map.mp hb
      obtain ⟨hh1, hh2, -⟩ := hnres3all res hresm
      rw [← hb2, hh2, hlf2, hh1, hrdv2]
    have hm4 : nres4.map (fun res => (res.round, res.best_of)) = [(4, 7)] := by
      obtain ⟨res0, hres0e⟩ := List.length_eq_one.mp hnres4len
      rw [hres0e]
      obtain ⟨hh1, hh2, -⟩ := hnres4all res0 (by rw [hres0e]; simp)
      simp only [List.map_cons, List.map_nil]
      rw [hh2, hlf3, hh1, hrdv3]
    rw [hm1, hm2, hm3, hm4]
  · intro res hres
    rw [hres04] at hres
    rcases List.mem_append.mp hres with h123 | h4
    · rcases List.mem_append.mp h123 with h12 | h3
      · rcases List.mem_append.mp h12 with hm1 | hm2
        · exact (hnres1all res hm1).2.2
        · exact (hnres2all res hm2).2.2
      · exact (hnres3all res h3).2.2
    · exact (hnres4all res h4).2.2

end FCR

namespace FCR

/-- A sixteen-team league for the C3 witness. -/
def c3League : League :=
  { emptyLeague with
      teams := (List.range 16).map (fun i => mkTeam ("T" ++ toString i) [] none 0) }

/-- The witness league with its playoff bracket seeded. -/
def c3Seeded : League :=
  (startPlayoffs c3League).getD emptyLeague

/-- Witness for C3 at the concrete sixteen-team league. -/
theorem c3_playoffs_four_rounds_witness :
    ∃ (champ : Nat) (L4 : League) (r4 : Rng) (p4 : Playoffs),
      simulatePlayoffsToChampion c3Seeded (constRng 0) = some (some champ, L4, r4) ∧
      champ < L4.teams.length ∧ L4.teams.length = c3Seeded.teams.length ∧
      L4.playoffs = some p4 ∧ p4.round = 4 ∧
      p4.results.map (fun res => (res.round, res.best_of)) =
        List.replicate 8 (1, 3) ++ List.replicate 4 (2, 5) ++
        List.replicate 2 (3, 5) ++ [(4, 7)] ∧
      (∀ res ∈ p4.results, ∃ x y, res.final = toString x ++ "-" ++ toString y ∧
        ((x = res.best_of / 2 + 1 ∧ y < res.best_of / 2 + 1) ∨
          (y = res.best_of / 2 + 1 ∧ x < res.best_of / 2 + 1))) :=
  c3_playoffs_four_rounds c3League c3Seeded (constRng 0) (by with_unfolding_all rfl)

end FCR

namespace FCR

/-- Claim C8:  two runs of `run_full_season_if_needed` started from
identical prior league state and identical random-generator state are
indistinguishable — the whole outcome, and in particular the results
log of the produced league, coincides.  In the embedding every random
draw is read off the explicit generator state, so equal seed states
force equal draw sequences. -/
theorem c8_same_seed_same_results (L1 L2 : League) (r1 r2 : Rng)
    (hL : L1 = L2) (hr : r1 = r2) :
    runFullSeasonIfNeeded L1 r1 = runFullSeasonIfNeeded L2 r2 ∧
    (runFullSeasonIfNeeded L1 r1).map (fun x => x.1.results) =
      (runFullSeasonIfNeeded L2 r2).map (fun x => x.1.results) := by
  subst hL
  subst hr
  exact ⟨rfl, rfl⟩

/-- Witness for C8 at a concrete league and seed state. -/
theorem c8_same_seed_same_results_witness :
    runFullSeasonIfNeeded emptyLeague (seedRng 42) =
      runFullSeasonIfNeeded emptyLeague (seedRng 42) ∧
    (runFullSeasonIfNeeded emptyLeague (seedRng 42)).map (fun x => x.1.results) =
      (runFullSeasonIfNeeded emptyLeague (seedRng 42)).map (fun x => x.1.results) :=
  c8_same_seed_same_results emptyLeague emptyLeague (seedRng 42) (seedRng 42) rfl rfl

end FCR
